import Mathlib

/-!
Verification development for `syndicate/core/build/meta_processor.py`.

The module aggregates per-component deployment descriptors into one build
manifest, detects and resolves same-name collisions (with a special merge
rule for API-gateway aggregates), validates dependency closure, derives
storage-location (`s3_path`) attributes, and rewrites resource names
(alias substitution plus prefix/suffix renaming) across the whole nested
manifest structure.

Shallow embedding conventions:
* Python JSON-like values are modelled by `Val`.  Sequences and mappings
  are encoded as cons chains (`vnil`/`vcons`, `dnil`/`dcons`) so that all
  operations are plain structural recursions that the kernel can evaluate.
  `vlist`/`vdict` build proper chains from Lean lists and `toListV`/`toPairs`
  decode them.
* A resource entry (a Python dict at the top level of the manifest) is the
  association list `Entry`; the manifest is the association list `Manifest`.
  Python dicts are insertion-ordered with unique keys; `dinsert` models
  `d[k] = v` (update in place, else append) and `alookup` models `d[k]`
  / `d.get(k)`.
* Fallible code returns `Except Err _`; Python `raise AssertionError`
  becomes a dedicated `Err` constructor, and `KeyError`/`TypeError`
  crashes that the source can hit on malformed data become
  `Err.keyError`/`Err.typeError`.
* `_resolve_names_in_meta` recurses through a structure it mutates while
  iterating; `resolveValF` reproduces it with an explicit recursion-depth
  fuel (first argument of the `Nat` recursion).  Each recursive descent of
  the Python function goes one level deeper into the original structure, so
  any fuel strictly larger than the nesting depth (`vdepth`) gives exactly
  the Python behaviour; the exposed wrappers pass such a fuel.
-/

/-- JSON-like Python values: strings, integers, lists (`vnil`/`vcons` chains)
and string-keyed dicts (`dnil`/`dcons` chains, insertion-ordered). -/
inductive Val where
  | str : String → Val
  | num : Int → Val
  | vnil : Val
  | vcons : Val → Val → Val
  | dnil : Val
  | dcons : String → Val → Val → Val
  deriving DecidableEq

/-- Build a proper list chain from a Lean list. -/
def vlist : List Val → Val
  | [] => .vnil
  | h :: t => .vcons h (vlist t)

/-- Build a proper dict chain from a Lean association list. -/
def vdict : List (String × Val) → Val
  | [] => .dnil
  | (k, v) :: t => .dcons k v (vdict t)

/-- Decode a list chain (ignores a malformed tail). -/
def toListV : Val → List Val
  | .vcons h t => h :: toListV t
  | _ => []

/-- Decode a dict chain (ignores a malformed tail). -/
def toPairs : Val → List (String × Val)
  | .dcons k v t => (k, v) :: toPairs t
  | _ => []

/-- Python `isinstance(v, dict)`. -/
def isDictV : Val → Bool
  | .dnil => true
  | .dcons _ _ _ => true
  | _ => false

/-- Python `isinstance(v, list)`. -/
def isSeqV : Val → Bool
  | .vnil => true
  | .vcons _ _ => true
  | _ => false

/-- Python `d.get(k)` on a dict chain. -/
def dlookup (k : String) : Val → Option Val
  | .dcons k2 v t => if k2 = k then some v else dlookup k t
  | _ => none

/-- Remove the binding of key `k` from a dict chain (first occurrence). -/
def dropKey (k : String) : Val → Val
  | .dcons k2 v t => if k2 = k then t else .dcons k2 v (dropKey k t)
  | v => v

/-- Python truthiness (`if v:`) of a value: empty strings, zero and empty
containers are falsy. -/
def Val.truthy : Val → Bool
  | .str s => !(s == "")
  | .num n => !(n == 0)
  | .vnil => false
  | .vcons _ _ => true
  | .dnil => false
  | .dcons _ _ _ => true

/-- Truthiness of a `d.get(k)` result (Python `None` is falsy). -/
def optTruthy : Option Val → Bool
  | some v => v.truthy
  | none => false

/-- Python structural equality `==` on values.  List equality is pointwise;
dict equality is key-based and order-insensitive: `{k: v, ...t} == b` iff
`k ∈ b`, `v == b[k]` and `t == b` without `k` (which, for dicts with unique
keys, is exactly CPython's dict equality: equal lengths and equal value at
every key). -/
def pyEqV : Val → Val → Bool
  | .str a, .str b => a == b
  | .num a, .num b => a == b
  | .vnil, .vnil => true
  | .vcons h t, .vcons h2 t2 => pyEqV h h2 && pyEqV t t2
  | .dnil, .dnil => true
  | .dcons k v t, b =>
      match dlookup k b with
      | some w => pyEqV v w && pyEqV t (dropKey k b)
      | none => false
  | _, _ => false

/-- A resource entry: a Python dict from attribute name to value. -/
abbrev Entry := List (String × Val)

/-- The manifest under construction: resource name to resource entry. -/
abbrev Manifest := List (String × Entry)

/-- Python `d.get(k)` / `d[k]` access on a top-level association list
(first binding of the key wins, as in a dict with unique keys). -/
def alookup {α : Type} (k : String) : List (String × α) → Option α
  | [] => none
  | (k2, v) :: t => if k2 = k then some v else alookup k t

/-- Python `k in d` on a top-level association list. -/
def hasKey {α : Type} (k : String) : List (String × α) → Bool
  | [] => false
  | (k2, _) :: t => if k2 = k then true else hasKey k t

/-- Python structural equality of two top-level entries (dict equality:
equal sizes and equal value at every key). -/
def pyEqEntry (a b : Entry) : Bool :=
  a.length == b.length && a.all (fun p =>
    match alookup p.1 b with
    | some w => pyEqV p.2 w
    | none => false)

/-- Python `d[k] = v` on an insertion-ordered dict: update in place if the
key exists, otherwise append the new binding at the end. -/
def dinsert {α : Type} (kvs : List (String × α)) (k : String) (v : α) :
    List (String × α) :=
  if hasKey k kvs then
    kvs.map (fun p => if p.1 = k then (k, v) else p)
  else kvs ++ [(k, v)]

/-- Keys of a manifest, in insertion order. -/
def mkeys (m : Manifest) : List String := m.map Prod.fst

/-- Errors of the merge/resolve pipeline.  The first six model the
`AssertionError`s the source raises; `keyError`/`typeError` model the
`KeyError`/`TypeError`/`AttributeError` crashes Python reaches on
malformed entries. -/
inductive Err where
  | duplicateSubResource (apiName sub : String)
  | duplicateCacheConfig (apiName : String)
  | duplicateResource (name : String)
  | conflictingResource (name : String) (first second : Entry)
  | missingField (fields : String) (meta : Entry)
  | unresolvedDependency (dep : Option Val)
  | unrecognizedResourceType (t : String)
  | keyError (key : String)
  | typeError
  deriving DecidableEq

/-- Python `e[k]`: a missing key raises `KeyError`. -/
def kget (e : Entry) (k : String) : Except Err Val :=
  match alookup k e with
  | some v => .ok v
  | none => .error (.keyError k)

/-- Calling `.keys()`/`.update` on a non-dict raises in Python. -/
def asDictPairs (v : Val) : Except Err (List (String × Val)) :=
  if isDictV v then .ok (toPairs v) else .error .typeError

/-- Iterating a value that is not a list raises in Python (the source only
ever iterates values it expects to be lists). -/
def asListVals (v : Val) : Except Err (List Val) :=
  if isSeqV v then .ok (toListV v) else .error .typeError

/-- Python `+` as used on `apply_changes` values (list concatenation;
string/number addition kept for faithfulness; anything else raises). -/
def pyAdd : Val → Val → Except Err Val
  | .str a, .str b => .ok (.str (a ++ b))
  | .num a, .num b => .ok (.num (a + b))
  | a, b =>
    if isSeqV a && isSeqV b then .ok (vlist (toListV a ++ toListV b))
    else .error .typeError

/-- Python `pat in s` over characters: `pat` begins `l`. -/
def charsBeginWith : List Char → List Char → Bool
  | [], _ => true
  | _ :: _, [] => false
  | c :: ps, d :: ls => c == d && charsBeginWith ps ls

/-- Python substring containment `pat in s` over characters. -/
def charsContain (pat : List Char) : List Char → Bool
  | [] => pat.isEmpty
  | c :: t => charsBeginWith pat (c :: t) || charsContain pat t

/-- Python `old_value in v` on strings. -/
def strContains (s pat : String) : Bool := charsContain pat.data s.data

/-- Python `v.startswith(pat)`. -/
def strBeginsWith (s pat : String) : Bool := charsBeginWith pat.data s.data

/-- Python `s.lower()`, character by character. -/
def strLower (s : String) : String := ⟨s.data.map Char.toLower⟩

/-- Left-to-right non-overlapping replacement over characters, fuelled by
the length of the scanned list (each step consumes at least one character,
so that fuel is always sufficient). -/
def replGoF (old new : List Char) : Nat → List Char → List Char
  | _, [] => []
  | 0, l => l
  | f + 1, c :: t =>
    if charsBeginWith old (c :: t) then
      new ++ replGoF old new f ((c :: t).drop old.length)
    else c :: replGoF old new f t

/-- Python `s.replace(old, new)`: replaces every non-overlapping occurrence
left to right; an empty pattern interleaves `new` around every character. -/
def pyReplace (s old new : String) : String :=
  match old.data with
  | [] => ⟨new.data ++ s.data.foldr (fun c acc => c :: (new.data ++ acc)) []⟩
  | _ :: _ => ⟨replGoF old.data new.data s.data.length s.data⟩

/-- Modelled from the spec: the resource-type tags live in
`syndicate.core.constants`, which is not among the given sources; they are
opaque distinct string tags (the composite/routable API type, the lambda
function type and the Beanstalk package-deploy type). -/
def API_GATEWAY_TYPE : String := "api_gateway"

/-- Modelled from the spec: the lambda resource-type tag (see
`API_GATEWAY_TYPE`). -/
def LAMBDA_TYPE : String := "lambda"

/-- Modelled from the spec: the Beanstalk resource-type tag (see
`API_GATEWAY_TYPE`). -/
def EBS_TYPE : String := "ebs"

/-- Modelled from the spec: `S3_PATH_NAME` (from `syndicate.core`, not among
the given sources) is the attribute name of the derived storage-location
attribute. -/
def S3_PATH_NAME : String := "s3_path"

/-- Modelled from the spec: `build_path` (from `syndicate.core.helper`, not
among the given sources) joins path fragments with `/`; the spec's derived
value table writes it `{bundle_name}/{deployment_package}`. -/
def buildPath (a b : String) : String := a ++ "/" ++ b

/-- Render a value the way Python's string formatting would render the
(string or number) attributes that reach `build_py_package_name`. -/
def pyStrOf : Val → String
  | .str s => s
  | .num n => toString n
  | _ => ""

/-- Modelled from the spec: `build_py_package_name` (from
`syndicate.core.build.helper`, not among the given sources) packages
`name`/`version` as `{name}-{version}.zip` (spec example:
`svc`, `1.0` ↦ `svc-1.0.zip`). -/
def buildPyPackageName (name version : Val) : String :=
  pyStrOf name ++ "-" ++ pyStrOf version ++ ".zip"

/-- `_populate_s3_path_python`: an interpreted-runtime lambda must carry
truthy `name` and `version`; the derived attribute is
`{bundle}/{name}-{version}.zip`. -/
def populateS3PathPython (meta : Entry) (bundleName : String) :
    Except Err Entry :=
  match alookup "name" meta, alookup "version" meta with
  | some n, some v =>
    if n.truthy && v.truthy then
      .ok (dinsert meta S3_PATH_NAME
        (.str (buildPath bundleName (buildPyPackageName n v))))
    else .error (.missingField "name and version" meta)
  | _, _ => .error (.missingField "name and version" meta)

/-- `_populate_s3_path_java`: a JVM-runtime lambda must carry a truthy
`deployment_package`; the derived attribute is `{bundle}/{package}`. -/
def populateS3PathJava (meta : Entry) (bundleName : String) :
    Except Err Entry :=
  match alookup "deployment_package" meta with
  | some dp =>
    if dp.truthy then
      .ok (dinsert meta S3_PATH_NAME
        (.str (buildPath bundleName (pyStrOf dp))))
    else .error (.missingField "deployment_package" meta)
  | none => .error (.missingField "deployment_package" meta)

/-- `_populate_s3_path_ebs`: a Beanstalk entry must carry a truthy
`deployment_package`; the derived attribute is `{bundle}/{package}`. -/
def populateS3PathEbs (meta : Entry) (bundleName : String) :
    Except Err Entry :=
  match alookup "deployment_package" meta with
  | some dp =>
    if dp.truthy then
      .ok (dinsert meta S3_PATH_NAME
        (.str (buildPath bundleName (pyStrOf dp))))
    else .error (.missingField "deployment_package" meta)
  | none => .error (.missingField "deployment_package" meta)

/-- `_populate_s3_path_lambda`: requires a truthy `runtime`, then dispatches
through `RUNTIME_PATH_RESOLVER` (`python2.7` ↦ python, `java8` ↦ java,
lower-cased lookup); an unknown runtime raises the same "must contain
runtime" error the missing-runtime case raises. -/
def populateS3PathLambda (meta : Entry) (bundleName : String) :
    Except Err Entry :=
  match alookup "runtime" meta with
  | none => .error (.missingField "runtime" meta)
  | some rt =>
    if rt.truthy then
      match rt with
      | .str r =>
        if strLower r = "python2.7" then populateS3PathPython meta bundleName
        else if strLower r = "java8" then populateS3PathJava meta bundleName
        else .error (.missingField "runtime" meta)
      | _ => .error .typeError
    else .error (.missingField "runtime" meta)

/-- `_populate_s3_path`: dispatch through `S3_PATH_MAPPING`
(lambda ↦ `_populate_s3_path_lambda`, ebs ↦ `_populate_s3_path_ebs`);
a type with no mapping function leaves the entry untouched. -/
def populateS3Path (meta : Entry) (bundleName : String) : Except Err Entry :=
  match alookup "resource_type" meta with
  | some (.str t) =>
    if t = LAMBDA_TYPE then populateS3PathLambda meta bundleName
    else if t = EBS_TYPE then populateS3PathEbs meta bundleName
    else .ok meta
  | _ => .ok meta

/-- Python `each['resource_name']` on a dependency element. -/
def depNameE (d : Val) : Except Err Val := do
  let dd ← asDictPairs d
  match alookup "resource_name" dd with
  | some n => .ok n
  | none => .error (.keyError "resource_name")

/-- The `resource_name` of a dependency element, when present. -/
def depNameOf (d : Val) : Option Val := alookup "resource_name" (toPairs d)

/-- The keys of the `dependencies_dict` comprehension of
`_check_duplicated_resources`: the `resource_name` of every element of the
incoming entry's dependency list (`KeyError`/`TypeError` on malformed
elements, in list order). -/
def depNames : List Val → Except Err (List Val)
  | [] => .ok []
  | d :: rest => do
    let n ← depNameE d
    let tail ← depNames rest
    pure (n :: tail)

/-- The dependency-union loop of `_check_duplicated_resources`: an existing
dependency is appended exactly when its `resource_name` equals none of the
incoming names. -/
def joinDeps (addNames : List Val) : List Val → Except Err (List Val)
  | [] => .ok []
  | d :: rest => do
    let n ← depNameE d
    let tail ← joinDeps addNames rest
    if addNames.any (fun m => pyEqV n m) then pure tail
    else pure (d :: tail)

/-- The cache-configuration carry-over of `_check_duplicated_resources`:
a truthy existing `cluster_cache_configuration` is written into the
incoming entry (a falsy or absent one is not). -/
def carryCache (initialItem additionalItem : Entry) : Entry :=
  match alookup "cluster_cache_configuration" initialItem with
  | some c =>
    if c.truthy then dinsert additionalItem "cluster_cache_configuration" c
    else additionalItem
  | none => additionalItem

/-- The `deploy_stage` override of `_check_duplicated_resources`: a truthy
existing `deploy_stage` overrides the incoming entry's. -/
def carryDeployStage (initialItem mergedSoFar : Entry) : Entry :=
  match alookup "deploy_stage" initialItem with
  | some ds =>
    if ds.truthy then dinsert mergedSoFar "deploy_stage" ds else mergedSoFar
  | none => mergedSoFar

/-- The duplicate sub-resource scan of `_check_duplicated_resources`: the
first existing sub-resource name that also appears among the incoming
sub-resource names is fatal; the incoming `resources` value is only read
when the loop body runs (the existing map is non-empty). -/
def scanDuplicatedSubResources (name : String)
    (initRes : List (String × Val)) (additionalItem : Entry) :
    Except Err Unit :=
  match initRes with
  | [] => pure ()
  | _ :: _ => do
    let addResV ← kget additionalItem "resources"
    let addRes ← asDictPairs addResV
    match (initRes.map Prod.fst).find?
        (fun k => decide (k ∈ addRes.map Prod.fst)) with
    | some sub => throw (Err.duplicateSubResource name sub)
    | none => pure ()

/-- The API-gateway merge branch of `_check_duplicated_resources`
(source lines 75-113), statement by statement: duplicate sub-resource scan,
cache-configuration conflict check and carry-over, dependency union by
`resource_name`, `resources` union via `dict.update`, `deploy_stage`
override, `apply_changes` concatenation; returns the merged incoming
entry. -/
def mergeApis (name : String) (initialItem additionalItem : Entry) :
    Except Err (Option Entry) := do
  let initResV ← kget initialItem "resources"
  let initRes ← asDictPairs initResV
  scanDuplicatedSubResources name initRes additionalItem
  let initCache := alookup "cluster_cache_configuration" initialItem
  let addCache := alookup "cluster_cache_configuration" additionalItem
  if optTruthy initCache && optTruthy addCache then
    throw (Err.duplicateCacheConfig name)
  else pure ()
  let add1 := carryCache initialItem additionalItem
  let addDepsV ← kget add1 "dependencies"
  let addDeps ← asListVals addDepsV
  let addNames ← depNames addDeps
  let initDepsV ← kget initialItem "dependencies"
  let initDeps ← asListVals initDepsV
  let extra ← joinDeps addNames initDeps
  let add2 := dinsert add1 "dependencies" (vlist (addDeps ++ extra))
  let addResV2 ← kget add2 "resources"
  let addRes2 ← asDictPairs addResV2
  let add3 := dinsert add2 "resources"
    (vdict (initRes.foldl (fun acc p => dinsert acc p.1 p.2) addRes2))
  let add4 := carryDeployStage initialItem add3
  let initApply := (alookup "apply_changes" initialItem).getD (vlist [])
  let addApply := (alookup "apply_changes" add4).getD (vlist [])
  let app ← pyAdd initApply addApply
  pure (some (dinsert add4 "apply_changes" app))

/-- `_check_duplicated_resources`: no collision (or a falsy existing entry)
yields `none`; two API-gateway entries are merged by `mergeApis`; two
entries of one non-composite type are a fatal duplicate (deep-equal) or
conflict (differing); differing types fall through with no merged value. -/
def checkDuplicatedResources (initialMetaDict : Manifest)
    (additionalItemName : String) (additionalItem : Entry) :
    Except Err (Option Entry) :=
  match alookup additionalItemName initialMetaDict with
  | none => .ok none
  | some initialItem =>
    match alookup "resource_type" additionalItem with
    | none => .error (.keyError "resource_type")
    | some additionalType =>
      if initialItem.isEmpty then .ok none
      else
        match alookup "resource_type" initialItem with
        | none => .error (.keyError "resource_type")
        | some initialType =>
          if pyEqV additionalType initialType &&
              pyEqV initialType (.str API_GATEWAY_TYPE) then
            mergeApis additionalItemName initialItem additionalItem
          else if pyEqV additionalType initialType then
            if pyEqEntry additionalItem initialItem then
              .error (.duplicateResource additionalItemName)
            else
              .error (.conflictingResource additionalItemName initialItem
                additionalItem)
          else .ok none

/-- One iteration of the discovery loop of `_look_for_configs`: populate the
storage-location attribute, resolve a possible collision, then store the
(possibly merged) entry under the name, overwriting any previous entry. -/
def lookForConfigsStep (resourcesMeta : Manifest) (resourceName : String)
    (resource : Entry) (bundleName : String) : Except Err Manifest := do
  let resource1 ← populateS3Path resource bundleName
  match checkDuplicatedResources resourcesMeta resourceName resource1 with
  | .error e => throw e
  | .ok none => pure (dinsert resourcesMeta resourceName resource1)
  | .ok (some res) => pure (dinsert resourcesMeta resourceName res)

/-- The whole discovery loop over the (name, entry) pairs found in the
project tree, with file I/O abstracted away: entries are folded into the
running manifest; a raised error aborts immediately, leaving the manifest
built so far as it was before the failing step. -/
def processAll (bundleName : String) :
    Manifest → List (String × Entry) → Manifest × Option Err
  | meta, [] => (meta, none)
  | meta, (n, it) :: rest =>
    match lookForConfigsStep meta n it bundleName with
    | .error e => (meta, some e)
    | .ok meta2 => processAll bundleName meta2 rest

/-- Python `dependency.get('resource_name') in list(resources_meta.keys())`
for one dependency element: the name must be a string that is a manifest
key (a missing or non-string name is never a key). -/
def depOk (keys : List String) (d : Val) : Bool :=
  match alookup "resource_name" (toPairs d) with
  | some (.str s) => decide (s ∈ keys)
  | _ => false

/-- The inner loop of the dependency-closure check of
`create_resource_json`: each dependency element's `resource_name` must be a
key of the final manifest, else the fatal error names the missing
dependency. -/
def depListScan (keys : List String) : List Val → Except Err Unit
  | [] => .ok ()
  | d :: rest =>
    if isDictV d then
      if depOk keys d then depListScan keys rest
      else .error (.unresolvedDependency (alookup "resource_name" (toPairs d)))
    else .error .typeError

/-- The dependency-closure check of `create_resource_json` (source lines
264-277): scan every entry's truthy `dependencies` list. -/
def depScan (keys : List String) : List (String × Entry) → Except Err Unit
  | [] => .ok ()
  | (_, e) :: rest =>
    match alookup "dependencies" e with
    | some dv =>
      if dv.truthy then
        if isSeqV dv then
          match depListScan keys (toListV dv) with
          | .ok _ => depScan keys rest
          | .error er => .error er
        else .error .typeError
      else depScan keys rest
    | none => depScan keys rest

/-- `create_resource_json` with the directory walk abstracted to the list of
discovered (name, entry) pairs: merge everything, then run the global
dependency-closure check; only then is the manifest returned. -/
def createResourceJson (bundleName : String)
    (discovered : List (String × Entry)) : Except Err Manifest :=
  match processAll bundleName [] discovered with
  | (_, some e) => .error e
  | (meta, none) =>
    match depScan (meta.map Prod.fst) meta with
    | .ok _ => .ok meta
    | .error e => .error e

/-- The string-replacement rule of `_resolve_names_in_meta` for a dict
value `v`: exact match replaces (via `v.replace`, which yields the new
value); otherwise a string that contains the token and starts with `arn`
gets its occurrences replaced; other strings are untouched. -/
def ruleStr (oldValue newValue s : String) : Val :=
  if s == oldValue then .str (pyReplace s oldValue newValue)
  else if strContains s oldValue && strBeginsWith s "arn" then
    .str (pyReplace s oldValue newValue)
  else .str s

/-- Nesting depth of a value (chains count as one level around their
elements' values). -/
def vdepth : Val → Nat
  | .str _ => 0
  | .num _ => 0
  | .vnil => 0
  | .dnil => 0
  | .vcons h t => max (vdepth h + 1) (vdepth t)
  | .dcons _ v t => max (vdepth v + 1) (vdepth t)

/-- The dict branch of `_resolve_names_in_meta`: every value is either a
string put through `ruleStr` or recursed into by `g` (the one-level-deeper
resolver); keys are untouched (the key-renaming line is commented out in
the source). -/
def dmapVals (oldValue newValue : String) (g : Val → Val) : Val → Val
  | .dcons k v t =>
    .dcons k
      (match v with
        | .str s => ruleStr oldValue newValue s
        | w => g w)
      (dmapVals oldValue newValue g t)
  | v => v

/-- The list branch of `_resolve_names_in_meta`, as CPython executes it:
an index-based scan of the evolving list.  A dict element is resolved in
place by `g`; a string element equal to the token is deleted at the first
index holding the token (`list.index`) and the replacement is appended at
the end, so the element sliding into the freed slot is skipped by the
iterator; other elements (including nested lists) are untouched.  The
iteration fuel is the initial length; every branch preserves the length,
so the scan visits exactly the positions `0 … length-1`. -/
def pyLoop (oldValue newValue : String) (g : Val → Val) :
    Nat → List Val → Nat → List Val
  | 0, l, _ => l
  | fuel + 1, l, i =>
    if h : i < l.length then
      match l[i] with
      | .dcons k v t =>
        pyLoop oldValue newValue g fuel (l.set i (g (.dcons k v t))) (i + 1)
      | .dnil => pyLoop oldValue newValue g fuel (l.set i (g .dnil)) (i + 1)
      | .str s =>
        if s = oldValue then
          pyLoop oldValue newValue g fuel
            ((l.eraseIdx (l.findIdx (fun x => decide (x = Val.str oldValue))))
              ++ [.str newValue]) (i + 1)
        else pyLoop oldValue newValue g fuel l (i + 1)
      | _ => pyLoop oldValue newValue g fuel l (i + 1)
    else l

/-- `_resolve_names_in_meta` on a value, fuelled by recursion depth: each
Python recursion (dict values that are not strings, dict elements of lists)
descends one level into the original structure, so any fuel above `vdepth`
reproduces the source exactly (the exposed wrappers pass such a fuel). -/
def resolveValF (oldValue newValue : String) : Nat → Val → Val
  | 0, v => v
  | f + 1, v =>
    match v with
    | .dnil => dmapVals oldValue newValue (resolveValF oldValue newValue f) .dnil
    | .dcons k w t =>
      dmapVals oldValue newValue (resolveValF oldValue newValue f) (.dcons k w t)
    | .vnil => vlist (pyLoop oldValue newValue
        (resolveValF oldValue newValue f) 0 [] 0)
    | .vcons h t =>
      vlist (pyLoop oldValue newValue (resolveValF oldValue newValue f)
        (toListV (.vcons h t)).length (toListV (.vcons h t)) 0)
    | w => w

/-- The per-value rule of the dict branch of `_resolve_names_in_meta`:
string values go through the replacement rule, any other value is recursed
into. -/
def dictValRule (oldValue newValue : String) (f : Nat) : Val → Val
  | .str s => ruleStr oldValue newValue s
  | w => resolveValF oldValue newValue f w

/-- The dict branch of `_resolve_names_in_meta` applied to a top-level
entry (attribute dict) of the manifest. -/
def rewriteEntryF (oldValue newValue : String) (f : Nat) (e : Entry) : Entry :=
  e.map (fun p => (p.1, dictValRule oldValue newValue f p.2))

/-- Depth-based fuel that is strictly larger than the nesting depth of
every value of the entry. -/
def entryFuel (e : Entry) : Nat :=
  1 + (e.map (fun p => vdepth p.2)).foldr max 0

/-- `_resolve_names_in_meta` applied to the whole manifest dict: entry
values are dicts, never strings, so every entry goes through the recursive
dict rewrite; manifest keys are untouched. -/
def resolveNamesInMeta (oldValue newValue : String) (m : Manifest) : Manifest :=
  m.map (fun p => (p.1, rewriteEntryF oldValue newValue (entryFuel p.2) p.2))

/-- The naming-rule inputs `resolve_meta` reads from the global `CONFIG`:
`resources_prefix`, `resources_suffix` (empty string models an unset,
falsy rule) and the `aliases` table. -/
structure Config where
  resourcesPre : String
  resourcesSuf : String
  aliases : List (String × String)

/-- The `${key}` alias token for a configured alias name. -/
def aliasToken (key : String) : String := "$\x7b" ++ key ++ "\x7d"

/-- Modelled from the spec: `resolve_aliases_for_string`
(`syndicate.core.helper`, not among the given sources) substitutes each
configured alias token occurring in the rule string with its value. -/
def resolveAliasesForString (aliases : List (String × String)) (s : String) :
    String :=
  aliases.foldl (fun acc p => pyReplace acc (aliasToken p.1) p.2) s

/-- `_resolve_prefix_name`: prepend the alias-resolved prefix when one is
configured (truthy). -/
def resolvePrefixName (resourceName resourcePre : String)
    (aliases : List (String × String)) : String :=
  if resourcePre ≠ "" then
    resolveAliasesForString aliases resourcePre ++ resourceName
  else resourceName

/-- `_resolve_suffix_name`: append the alias-resolved suffix when one is
configured (truthy). -/
def resolveSuffixName (resourceName resourceSuf : String)
    (aliases : List (String × String)) : String :=
  if resourceSuf ≠ "" then
    resourceName ++ resolveAliasesForString aliases resourceSuf
  else resourceName

/-- `resolve_resource_name`: suffix applied after prefix, both read from
the configuration. -/
def resolveResourceName (cfg : Config) (resourceName : String) : String :=
  resolveSuffixName
    (resolvePrefixName resourceName cfg.resourcesPre cfg.aliases)
    cfg.resourcesSuf cfg.aliases

/-- Modelled from the spec: `resolve_dynamic_identifier`
(`syndicate.core.resources.helper`, not among the given sources); per the
spec, the alias-substitution pass applies the same replacement rule over
the whole manifest as the rename rewrite (`_resolve_names_in_meta`), with
the alias token as the old value. -/
def resolveDynamicIdentifier (token value : String) (m : Manifest) : Manifest :=
  resolveNamesInMeta token value m

/-- The alias-substitution loop of `resolve_meta`: one pass per configured
alias, in table order. -/
def aliasPass (aliases : List (String × String)) (m : Manifest) : Manifest :=
  aliases.foldl (fun acc p => resolveDynamicIdentifier (aliasToken p.1) p.2 acc) m

/-- The `resolved_names` collection loop of `resolve_meta`: every entry
whose `resource_type` is one of the globally-named (rename-eligible)
service types and whose resolved name differs from its current name
contributes a pair (current, resolved), in manifest order. -/
def computeResolvedNames (cfg : Config) (globalAwsServices : List String) :
    List (String × Entry) → Except Err (List (String × String))
  | [] => .ok []
  | (name, e) :: rest => do
    let t ← kget e "resource_type"
    let tail ← computeResolvedNames cfg globalAwsServices rest
    let isGlobal := match t with
      | .str s => decide (s ∈ globalAwsServices)
      | _ => false
    if isGlobal then
      if name ≠ resolveResourceName cfg name then
        pure ((name, resolveResourceName cfg name) :: tail)
      else pure tail
    else pure tail

/-- The renaming loop of `resolve_meta`: for each collected pair, pop the
entry from its current key (`KeyError` if absent), store it under the
resolved key, then rewrite every other occurrence of the old name in the
manifest. -/
def applyRenames : List (String × String) → Manifest → Except Err Manifest
  | [], m => .ok m
  | (currentName, resolvedName) :: rest, m =>
    match alookup currentName m with
    | none => .error (.keyError currentName)
    | some e =>
      applyRenames rest (resolveNamesInMeta currentName resolvedName
        (dinsert (m.eraseP (fun p => decide (p.1 = currentName))) resolvedName e))

/-- `resolve_meta`: alias substitution over the whole manifest, then the
prefix/suffix renaming pass restricted to the rename-eligible resource
types (`GLOBAL_AWS_SERVICES`, passed explicitly). -/
def resolveMeta (cfg : Config) (globalAwsServices : List String)
    (overallMeta : Manifest) : Except Err Manifest := do
  let rns ← computeResolvedNames cfg globalAwsServices
    (aliasPass cfg.aliases overallMeta)
  applyRenames rns (aliasPass cfg.aliases overallMeta)

/-- The `resolved_names` mapping of `resolve_meta` written as a filterMap:
an entry contributes the pair (current name, resolved name) exactly when
its `resource_type` is a rename-eligible string and the resolved name
differs.  Proved to agree with the collection loop
`computeResolvedNames` (claim C2). -/
def renamePairs (cfg : Config) (globalAwsServices : List String)
    (m : Manifest) : List (String × String) :=
  m.filterMap (fun p =>
    match alookup "resource_type" p.2 with
    | some (Val.str s) =>
      if s ∈ globalAwsServices ∧ p.1 ≠ resolveResourceName cfg p.1 then
        some (p.1, resolveResourceName cfg p.1)
      else none
    | _ => none)


/-! ### General lemmas about the dict model -/

theorem alookup_map_value {α β : Type} (g : α → β) (k : String) :
    ∀ m : List (String × α),
      alookup k (m.map (fun p => (p.1, g p.2))) = (alookup k m).map g
  | [] => rfl
  | (k2, v) :: t => by
    by_cases h : k2 = k
    · simp [alookup, h]
    · simp [alookup, h, alookup_map_value g k t]

theorem alookup_none_of_hasKey_eq_false {α : Type} (k : String) :
    ∀ m : List (String × α), hasKey k m = false → alookup k m = none
  | [], _ => rfl
  | (k2, v) :: t, h => by
    by_cases hk : k2 = k
    · simp [hasKey, hk] at h
    · simp only [hasKey, hk, if_false] at h
      simp [alookup, hk, alookup_none_of_hasKey_eq_false k t h]

theorem alookup_mapRepl_self {α : Type} (k : String) (v : α) :
    ∀ m : List (String × α), hasKey k m = true →
      alookup k (m.map (fun p => if p.1 = k then (k, v) else p)) = some v
  | [], h => by simp [hasKey] at h
  | (k2, w) :: t, h => by
    rw [List.map_cons]
    by_cases hk : k2 = k
    · rw [show (if (k2, w).1 = k then (k, v) else (k2, w)) = (k, v) by
        simp [hk]]
      simp [alookup]
    · rw [show (if (k2, w).1 = k then (k, v) else (k2, w)) = (k2, w) by
        simp [hk]]
      simp only [hasKey, hk, if_false] at h
      simp [alookup, hk, alookup_mapRepl_self k v t h]

theorem alookup_mapRepl_ne {α : Type} (k k2 : String) (v : α) (hne : k2 ≠ k) :
    ∀ m : List (String × α),
      alookup k2 (m.map (fun p => if p.1 = k then (k, v) else p)) =
        alookup k2 m
  | [] => rfl
  | (k3, w) :: t => by
    rw [List.map_cons]
    by_cases hk : k3 = k
    · rw [show (if (k3, w).1 = k then (k, v) else (k3, w)) = (k, v) by
        simp [hk]]
      have hkne : k ≠ k2 := hne.symm
      have h3 : k3 ≠ k2 := by rw [hk]; exact hkne
      simp [alookup, hkne, h3, hk, alookup_mapRepl_ne k k2 v hne t]
    · rw [show (if (k3, w).1 = k then (k, v) else (k3, w)) = (k3, w) by
        simp [hk]]
      by_cases h3 : k3 = k2
      · simp [alookup, h3]
      · simp [alookup, h3, alookup_mapRepl_ne k k2 v hne t]

theorem alookup_append_single_self {α : Type} (k : String) (v : α) :
    ∀ m : List (String × α), alookup k m = none →
      alookup k (m ++ [(k, v)]) = some v
  | [], _ => by simp [alookup]
  | (k2, w) :: t, h => by
    by_cases hk : k2 = k
    · simp [alookup, hk] at h
    · simp only [alookup, hk, if_false] at h
      simp [alookup, hk, alookup_append_single_self k v t h]

theorem alookup_append_single_ne {α : Type} (k k2 : String) (v : α)
    (hne : k2 ≠ k) :
    ∀ m : List (String × α),
      alookup k2 (m ++ [(k, v)]) = alookup k2 m
  | [] => by simp [alookup, hne.symm]
  | (k3, w) :: t => by
    by_cases h3 : k3 = k2
    · simp [alookup, h3]
    · simp [alookup, h3, alookup_append_single_ne k k2 v hne t]

theorem alookup_dinsert_self {α : Type} (k : String) (v : α)
    (m : List (String × α)) : alookup k (dinsert m k v) = some v := by
  unfold dinsert
  cases h : hasKey k m with
  | true => simpa [h] using alookup_mapRepl_self k v m h
  | false =>
    simpa [h] using
      alookup_append_single_self k v m (alookup_none_of_hasKey_eq_false k m h)

theorem alookup_dinsert_ne {α : Type} (k k2 : String) (v : α) (hne : k2 ≠ k)
    (m : List (String × α)) :
    alookup k2 (dinsert m k v) = alookup k2 m := by
  unfold dinsert
  cases h : hasKey k m with
  | true => simpa [h] using alookup_mapRepl_ne k k2 v hne m
  | false => simpa [h] using alookup_append_single_ne k k2 v hne m

theorem except_bind_ok {ε α β : Type} (a : α) (f : α → Except ε β) :
    (Except.ok (ε := ε) a >>= f) = f a := rfl

theorem entry_isEmpty_false_of_lookup {k : String} {e : Entry} {v : Val}
    (h : alookup k e = some v) : e.isEmpty = false := by
  cases e with
  | nil => simp [alookup] at h
  | cons p t => rfl

/-- The four fatal collision errors of `_check_duplicated_resources`. -/
def isCollisionErr : Err → Bool
  | .duplicateSubResource _ _ => true
  | .duplicateCacheConfig _ => true
  | .duplicateResource _ => true
  | .conflictingResource _ _ _ => true
  | _ => false

/-! ### Claim theorems -/

/-- C4: for every collision between two entries sharing the same
non-composite `resource_type`, `_check_duplicated_resources` is fatal and
distinguishes by deep equality: deep-equal entries raise the "equal
resource descriptions" error (`DuplicateResource`), differing entries raise
the "two resources with equal names" error (`ConflictingResource`). -/
theorem C4_sameTypeCollisionFatal
    (meta : Manifest) (name : String) (add initialItem : Entry)
    (addT initT : Val)
    (hm : alookup name meta = some initialItem)
    (ha : alookup "resource_type" add = some addT)
    (hi : alookup "resource_type" initialItem = some initT)
    (heq : pyEqV addT initT = true)
    (hng : pyEqV initT (.str API_GATEWAY_TYPE) = false) :
    checkDuplicatedResources meta name add =
      .error (if pyEqEntry add initialItem then .duplicateResource name
              else .conflictingResource name initialItem add) := by
  have hemp : initialItem.isEmpty = false := entry_isEmpty_false_of_lookup hi
  simp only [checkDuplicatedResources, hm, ha, hi, hemp, heq, hng,
    Bool.true_and, Bool.false_eq_true, if_false, if_true]
  cases hpe : pyEqEntry add initialItem with
  | true => simp [hpe]
  | false => simp [hpe]

theorem C4_sameTypeCollisionFatal_witness :
    checkDuplicatedResources
      [("r", [("resource_type", Val.str "dynamodb"), ("size", Val.num 1)])]
      "r" [("resource_type", Val.str "dynamodb"), ("size", Val.num 2)] =
    .error (if pyEqEntry
        [("resource_type", Val.str "dynamodb"), ("size", Val.num 2)]
        [("resource_type", Val.str "dynamodb"), ("size", Val.num 1)] then
        .duplicateResource "r"
      else .conflictingResource "r"
        [("resource_type", Val.str "dynamodb"), ("size", Val.num 1)]
        [("resource_type", Val.str "dynamodb"), ("size", Val.num 2)]) :=
  C4_sameTypeCollisionFatal _ _ _ _ _ _ rfl rfl rfl rfl rfl

/-- C7: for every collision between two entries whose resource types
differ, `_check_duplicated_resources` produces no merged value and raises
no error, and the caller (`_look_for_configs`) stores the incoming entry
under the name, silently overwriting the earlier one. -/
theorem C7_typeMismatchOverwrites
    (meta : Manifest) (name bundleName : String)
    (resource addp initialItem : Entry) (addT initT : Val)
    (hp : populateS3Path resource bundleName = .ok addp)
    (hm : alookup name meta = some initialItem)
    (ha : alookup "resource_type" addp = some addT)
    (hi : alookup "resource_type" initialItem = some initT)
    (hne : pyEqV addT initT = false) :
    checkDuplicatedResources meta name addp = .ok none ∧
    lookForConfigsStep meta name resource bundleName =
      .ok (dinsert meta name addp) ∧
    alookup name (dinsert meta name addp) = some addp := by
  have hemp : initialItem.isEmpty = false := entry_isEmpty_false_of_lookup hi
  have hchk : checkDuplicatedResources meta name addp = .ok none := by
    simp [checkDuplicatedResources, hm, ha, hi, hemp, hne]
  refine ⟨hchk, ?_, alookup_dinsert_self name addp meta⟩
  unfold lookForConfigsStep
  rw [hp, except_bind_ok, hchk]
  rfl

theorem C7_typeMismatchOverwrites_witness :
    checkDuplicatedResources [("r", [("resource_type", Val.str "dynamodb")])]
      "r" [("resource_type", Val.str "sns_topic")] = .ok none ∧
    lookForConfigsStep [("r", [("resource_type", Val.str "dynamodb")])] "r"
      [("resource_type", Val.str "sns_topic")] "b1" =
      .ok (dinsert [("r", [("resource_type", Val.str "dynamodb")])] "r"
        [("resource_type", Val.str "sns_topic")]) ∧
    alookup "r" (dinsert [("r", [("resource_type", Val.str "dynamodb")])] "r"
      [("resource_type", Val.str "sns_topic")]) =
      some [("resource_type", Val.str "sns_topic")] :=
  C7_typeMismatchOverwrites _ _ _ _ _ _ _ _ rfl rfl rfl rfl rfl

/-- C10: for every fatal collision error, the error is raised before the
incoming entry is inserted into the running manifest and without mutating
any entry already present: the processing loop aborts with the manifest
exactly as it was before the failing step. -/
theorem C10_fatalCollisionLeavesManifest
    (bundleName : String) (meta : Manifest) (n : String) (it itp : Entry)
    (rest : List (String × Entry)) (e : Err)
    (hp : populateS3Path it bundleName = .ok itp)
    (hc : checkDuplicatedResources meta n itp = .error e)
    (hcol : isCollisionErr e = true) :
    lookForConfigsStep meta n it bundleName = .error e ∧
    processAll bundleName meta ((n, it) :: rest) = (meta, some e) := by
  have hstep : lookForConfigsStep meta n it bundleName = .error e := by
    unfold lookForConfigsStep
    rw [hp, except_bind_ok, hc]
    rfl
  exact ⟨hstep, by simp [processAll, hstep]⟩

theorem C10_fatalCollisionLeavesManifest_witness :
    lookForConfigsStep [("r", [("resource_type", Val.str "dynamodb")])] "r"
      [("resource_type", Val.str "dynamodb")] "b1" =
      .error (.duplicateResource "r") ∧
    processAll "b1" [("r", [("resource_type", Val.str "dynamodb")])]
      [("r", [("resource_type", Val.str "dynamodb")])] =
      ([("r", [("resource_type", Val.str "dynamodb")])],
        some (.duplicateResource "r")) :=
  C10_fatalCollisionLeavesManifest _ _ _ _ _ _ _ rfl rfl rfl

/-- C9: the derived storage-location attribute is populated by the
type-specific rule: a Beanstalk entry requires `deployment_package` and
gets `{bundle}/{package}`; a lambda entry requires `runtime`, with the
interpreted `python2.7` runtime requiring `name` and `version` (value
`{bundle}/{name}-{version}.zip`) and the JVM `java8` runtime requiring
`deployment_package`; a missing required attribute raises the fatal
`MissingField` error naming the missing field(s) and the offending entry;
an entry whose type has no rule is returned unchanged (in particular it is
left without the attribute). -/
theorem C9_storageLocationRules (meta : Entry) (bundleName : String) :
    ((∀ dp : Val, alookup "resource_type" meta = some (.str EBS_TYPE) →
      alookup "deployment_package" meta = some dp → dp.truthy = true →
      populateS3Path meta bundleName =
        .ok (dinsert meta S3_PATH_NAME
          (.str (buildPath bundleName (pyStrOf dp))))) ∧
    (alookup "resource_type" meta = some (.str EBS_TYPE) →
      optTruthy (alookup "deployment_package" meta) = false →
      populateS3Path meta bundleName =
        .error (.missingField "deployment_package" meta))) ∧
    ((alookup "resource_type" meta = some (.str LAMBDA_TYPE) →
      optTruthy (alookup "runtime" meta) = false →
      populateS3Path meta bundleName =
        .error (.missingField "runtime" meta)) ∧
    (∀ n v : Val, alookup "resource_type" meta = some (.str LAMBDA_TYPE) →
      alookup "runtime" meta = some (.str "python2.7") →
      alookup "name" meta = some n → alookup "version" meta = some v →
      n.truthy = true → v.truthy = true →
      populateS3Path meta bundleName =
        .ok (dinsert meta S3_PATH_NAME
          (.str (buildPath bundleName (buildPyPackageName n v))))) ∧
    (alookup "resource_type" meta = some (.str LAMBDA_TYPE) →
      alookup "runtime" meta = some (.str "python2.7") →
      (optTruthy (alookup "name" meta) = false ∨
        optTruthy (alookup "version" meta) = false) →
      populateS3Path meta bundleName =
        .error (.missingField "name and version" meta)) ∧
    (∀ dp : Val, alookup "resource_type" meta = some (.str LAMBDA_TYPE) →
      alookup "runtime" meta = some (.str "java8") →
      alookup "deployment_package" meta = some dp → dp.truthy = true →
      populateS3Path meta bundleName =
        .ok (dinsert meta S3_PATH_NAME
          (.str (buildPath bundleName (pyStrOf dp)))))) ∧
    (∀ t : String, alookup "resource_type" meta = some (.str t) →
      t ≠ LAMBDA_TYPE → t ≠ EBS_TYPE →
      populateS3Path meta bundleName = .ok meta) := by
  refine ⟨⟨?_, ?_⟩, ⟨?_, ?_, ?_, ?_⟩, ?_⟩
  · intro dp hrt hdp htr
    simp [populateS3Path, populateS3PathEbs, hrt, hdp, htr, EBS_TYPE,
      LAMBDA_TYPE]
  · intro hrt hdp
    cases hdpv : alookup "deployment_package" meta with
    | none =>
      simp [populateS3Path, populateS3PathEbs, hrt, hdpv, EBS_TYPE,
        LAMBDA_TYPE]
    | some dp =>
      rw [hdpv] at hdp
      simp only [optTruthy] at hdp
      simp [populateS3Path, populateS3PathEbs, hrt, hdpv, hdp, EBS_TYPE,
        LAMBDA_TYPE]
  · intro hrt hrun
    cases hrv : alookup "runtime" meta with
    | none =>
      simp [populateS3Path, populateS3PathLambda, hrt, hrv, LAMBDA_TYPE]
    | some rt =>
      rw [hrv] at hrun
      simp only [optTruthy] at hrun
      simp [populateS3Path, populateS3PathLambda, hrt, hrv, hrun, LAMBDA_TYPE]
  · intro n v hrt hrun hn hv htn htv
    have hc : (Val.str "python2.7").truthy = true := rfl
    simp [populateS3Path, populateS3PathLambda, populateS3PathPython, hrt,
      hrun, hn, hv, htn, htv, hc, LAMBDA_TYPE, strLower]
  · intro hrt hrun hnv
    have hpy : populateS3PathPython meta bundleName =
        .error (.missingField "name and version" meta) := by
      unfold populateS3PathPython
      cases hn : alookup "name" meta with
      | none => rfl
      | some n =>
        cases hv : alookup "version" meta with
        | none => rfl
        | some v =>
          rcases hnv with hf | hf
          · rw [hn] at hf
            simp only [optTruthy] at hf
            simp [hf]
          · rw [hv] at hf
            simp only [optTruthy] at hf
            simp [hf]
    have hc : (Val.str "python2.7").truthy = true := rfl
    simp [populateS3Path, populateS3PathLambda, hrt, hrun, LAMBDA_TYPE,
      hc, strLower, hpy]
  · intro dp hrt hrun hdp htr
    have hc : (Val.str "java8").truthy = true := rfl
    simp [populateS3Path, populateS3PathLambda, populateS3PathJava, hrt,
      hrun, hdp, htr, hc, LAMBDA_TYPE, strLower]
  · intro t hrt hl he
    simp [populateS3Path, hrt, hl, he]

theorem C9_storageLocationRules_witness :
    populateS3Path
      [("resource_type", Val.str "lambda"), ("name", Val.str "svc"),
        ("version", Val.str "1.0"), ("runtime", Val.str "python2.7")] "b1" =
    .ok (dinsert
      [("resource_type", Val.str "lambda"), ("name", Val.str "svc"),
        ("version", Val.str "1.0"), ("runtime", Val.str "python2.7")]
      S3_PATH_NAME
      (.str (buildPath "b1" (buildPyPackageName (Val.str "svc")
        (Val.str "1.0"))))) :=
  (C9_storageLocationRules _ "b1").2.1.2.1 (Val.str "svc") (Val.str "1.0")
    rfl rfl rfl rfl rfl rfl

/-- Well-formedness of the manifest for the dependency check: every truthy
`dependencies` value is a list of dicts (anything else crashes Python with
a `TypeError`/`AttributeError` rather than the documented error). -/
def wfDeps (m : List (String × Entry)) : Bool :=
  m.all (fun p =>
    match alookup "dependencies" p.2 with
    | some dv => !dv.truthy || (isSeqV dv && (toListV dv).all isDictV)
    | none => true)

/-- Every dependency of every entry names a key of the manifest. -/
def allDepsResolved (keys : List String) (m : List (String × Entry)) : Bool :=
  m.all (fun p =>
    match alookup "dependencies" p.2 with
    | some dv => !dv.truthy || (toListV dv).all (depOk keys)
    | none => true)

theorem allDepsResolved_cons (keys : List String) (k : String) (e : Entry)
    (rest : List (String × Entry)) :
    allDepsResolved keys ((k, e) :: rest) =
      ((match alookup "dependencies" e with
        | some dv => !dv.truthy || (toListV dv).all (depOk keys)
        | none => true) && allDepsResolved keys rest) := rfl

theorem wfDeps_cons (k : String) (e : Entry)
    (rest : List (String × Entry)) :
    wfDeps ((k, e) :: rest) =
      ((match alookup "dependencies" e with
        | some dv => !dv.truthy || (isSeqV dv && (toListV dv).all isDictV)
        | none => true) && wfDeps rest) := rfl

theorem depListScan_ok_iff (keys : List String) :
    ∀ ds : List Val, ds.all isDictV = true →
      ((depListScan keys ds = .ok ()) ↔ ds.all (depOk keys) = true)
  | [] => by simp [depListScan]
  | d :: rest => by
    intro hall
    rw [List.all_cons, Bool.and_eq_true] at hall
    rw [depListScan, if_pos hall.1, List.all_cons]
    cases hdo : depOk keys d with
    | true =>
      rw [if_pos rfl, Bool.true_and]
      exact depListScan_ok_iff keys rest hall.2
    | false => simp [hdo]

theorem depListScan_error_shape (keys : List String) :
    ∀ ds : List Val, ds.all isDictV = true →
      ∀ er, depListScan keys ds = .error er →
        ∃ nm, er = .unresolvedDependency nm ∧
          (match nm with
            | some (.str s) => decide (s ∈ keys)
            | _ => false) = false
  | [] => by simp [depListScan]
  | d :: rest => by
    intro hall er her
    rw [List.all_cons, Bool.and_eq_true] at hall
    rw [depListScan, if_pos hall.1] at her
    cases hdo : depOk keys d with
    | true =>
      rw [if_pos (by rw [hdo])] at her
      exact depListScan_error_shape keys rest hall.2 er her
    | false =>
      rw [if_neg (by rw [hdo]; exact Bool.false_ne_true)] at her
      cases her
      exact ⟨alookup "resource_name" (toPairs d), rfl,
        by simpa [depOk] using hdo⟩

theorem depScan_ok_iff (keys : List String) :
    ∀ m : List (String × Entry), wfDeps m = true →
      ((depScan keys m = .ok ()) ↔ allDepsResolved keys m = true)
  | [] => by simp [depScan, allDepsResolved]
  | (k, e) :: rest => fun hwf => by
    rw [wfDeps_cons, Bool.and_eq_true] at hwf
    obtain ⟨hwfe, hwfr⟩ := hwf
    have hrest := depScan_ok_iff keys rest hwfr
    rw [depScan, allDepsResolved_cons]
    cases hdv : alookup "dependencies" e with
    | none => simpa only [Bool.true_and] using hrest
    | some dv =>
      simp only [hdv] at hwfe
      cases htr : dv.truthy with
      | false =>
        simp only [htr, Bool.not_false, Bool.true_or, Bool.true_and,
          if_false, Bool.false_eq_true]
        exact hrest
      | true =>
        simp only [htr, Bool.not_true, Bool.false_or, if_true] at hwfe ⊢
        rw [Bool.and_eq_true] at hwfe
        simp only [hwfe.1, if_true]
        cases hscan : depListScan keys (toListV dv) with
        | ok u =>
          cases u
          have hall := (depListScan_ok_iff keys (toListV dv) hwfe.2).mp hscan
          simp only [hscan, hall, Bool.true_and]
          exact hrest
        | error er =>
          have hne : (toListV dv).all (depOk keys) = false := by
            cases hx : (toListV dv).all (depOk keys) with
            | true =>
              exact absurd hscan (by
                rw [(depListScan_ok_iff keys (toListV dv) hwfe.2).mpr hx]
                simp)
            | false => rfl
          simp [hscan, hne]

theorem depScan_error_shape (keys : List String) :
    ∀ m : List (String × Entry), wfDeps m = true →
      allDepsResolved keys m = false →
      ∃ nm, depScan keys m = .error (.unresolvedDependency nm) ∧
        (match nm with
          | some (.str s) => decide (s ∈ keys)
          | _ => false) = false
  | [] => by simp [allDepsResolved]
  | (k, e) :: rest => fun hwf hbad => by
    rw [wfDeps_cons, Bool.and_eq_true] at hwf
    obtain ⟨hwfe, hwfr⟩ := hwf
    rw [allDepsResolved_cons] at hbad
    rw [depScan]
    cases hdv : alookup "dependencies" e with
    | none =>
      simp only [hdv, Bool.true_and] at hbad
      exact depScan_error_shape keys rest hwfr hbad
    | some dv =>
      simp only [hdv] at hwfe hbad
      cases htr : dv.truthy with
      | false =>
        simp only [htr, Bool.not_false, Bool.true_or, Bool.true_and] at hbad
        simp only [htr, Bool.false_eq_true, if_false]
        exact depScan_error_shape keys rest hwfr hbad
      | true =>
        simp only [htr, Bool.not_true, Bool.false_or, if_true] at hwfe hbad ⊢
        rw [Bool.and_eq_true] at hwfe
        simp only [hwfe.1, if_true]
        cases hscan : depListScan keys (toListV dv) with
        | ok u =>
          cases u
          have hall := (depListScan_ok_iff keys (toListV dv) hwfe.2).mp hscan
          simp only [hall, Bool.true_and] at hbad
          simp only [hscan]
          exact depScan_error_shape keys rest hwfr hbad
        | error er =>
          obtain ⟨nm, hnm, hbadnm⟩ :=
            depListScan_error_shape keys (toListV dv) hwfe.2 er hscan
          refine ⟨nm, ?_, hbadnm⟩
          simp only [hscan, hnm]

/-- C5: after all sources are merged, every element of every entry's
`dependencies` list must name a key of the final manifest; the check
succeeds exactly when they all do, and otherwise `create_resource_json`
raises the fatal unresolved-dependency error naming the missing dependency
and returns no manifest. -/
theorem C5_dependencyClosure (m : Manifest) (hwf : wfDeps m = true) :
    ((depScan (mkeys m) m = .ok ()) ↔
      allDepsResolved (mkeys m) m = true) ∧
    (allDepsResolved (mkeys m) m = false →
      ∃ nm, depScan (mkeys m) m = .error (.unresolvedDependency nm) ∧
        (match nm with
          | some (.str s) => decide (s ∈ mkeys m)
          | _ => false) = false) ∧
    (∀ bundleName discovered e,
      processAll bundleName [] discovered = (m, none) →
      depScan (mkeys m) m = .error e →
      createResourceJson bundleName discovered = .error e) := by
  refine ⟨depScan_ok_iff (mkeys m) m hwf,
    depScan_error_shape (mkeys m) m hwf, ?_⟩
  intro bundleName discovered e hproc hscan
  unfold createResourceJson
  rw [hproc]
  simp only [mkeys] at hscan
  simp only [hscan]

theorem C5_dependencyClosure_witness :
    ((depScan (mkeys [("a",
        [("resource_type", Val.str "dynamodb"),
          ("dependencies", vlist [vdict [("resource_name", Val.str "b")]])])])
      [("a",
        [("resource_type", Val.str "dynamodb"),
          ("dependencies", vlist [vdict [("resource_name", Val.str "b")]])])]
        = .ok ()) ↔
      allDepsResolved (mkeys [("a",
        [("resource_type", Val.str "dynamodb"),
          ("dependencies", vlist [vdict [("resource_name", Val.str "b")]])])])
      [("a",
        [("resource_type", Val.str "dynamodb"),
          ("dependencies", vlist [vdict [("resource_name", Val.str "b")]])])]
        = true) ∧
    (allDepsResolved (mkeys [("a",
        [("resource_type", Val.str "dynamodb"),
          ("dependencies", vlist [vdict [("resource_name", Val.str "b")]])])])
      [("a",
        [("resource_type", Val.str "dynamodb"),
          ("dependencies", vlist [vdict [("resource_name", Val.str "b")]])])]
        = false →
      ∃ nm, depScan (mkeys [("a",
          [("resource_type", Val.str "dynamodb"),
            ("dependencies", vlist [vdict [("resource_name", Val.str "b")]])])])
        [("a",
          [("resource_type", Val.str "dynamodb"),
            ("dependencies", vlist [vdict [("resource_name", Val.str "b")]])])]
          = .error (.unresolvedDependency nm) ∧
        (match nm with
          | some (.str s) => decide (s ∈ mkeys [("a",
              [("resource_type", Val.str "dynamodb"),
                ("dependencies",
                  vlist [vdict [("resource_name", Val.str "b")]])])])
          | _ => false) = false) ∧
    (∀ bundleName discovered e,
      processAll bundleName [] discovered = ([("a",
        [("resource_type", Val.str "dynamodb"),
          ("dependencies", vlist [vdict [("resource_name", Val.str "b")]])])],
        none) →
      depScan (mkeys [("a",
        [("resource_type", Val.str "dynamodb"),
          ("dependencies", vlist [vdict [("resource_name", Val.str "b")]])])])
      [("a",
        [("resource_type", Val.str "dynamodb"),
          ("dependencies", vlist [vdict [("resource_name", Val.str "b")]])])]
        = .error e →
      createResourceJson bundleName discovered = .error e) :=
  C5_dependencyClosure _ rfl

theorem except_bind_error {ε α β : Type} (e : ε) (f : α → Except ε β) :
    (Except.error (α := α) e >>= f) = .error e := rfl

theorem except_throw (e : Err) {α : Type} :
    (throw e : Except Err α) = .error e := rfl

theorem toPairs_vdict : ∀ l : List (String × Val), toPairs (vdict l) = l
  | [] => rfl
  | (k, v) :: t => by simp [vdict, toPairs, toPairs_vdict t]

theorem toListV_vlist : ∀ l : List Val, toListV (vlist l) = l
  | [] => rfl
  | h :: t => by simp [vlist, toListV, toListV_vlist t]

theorem isDictV_vdict (l : List (String × Val)) : isDictV (vdict l) = true := by
  cases l <;> rfl

theorem isSeqV_vlist (l : List Val) : isSeqV (vlist l) = true := by
  cases l <;> rfl

theorem asDictPairs_vdict (l : List (String × Val)) :
    asDictPairs (vdict l) = .ok l := by
  simp [asDictPairs, isDictV_vdict, toPairs_vdict]

theorem asListVals_vlist (l : List Val) : asListVals (vlist l) = .ok l := by
  simp [asListVals, isSeqV_vlist, toListV_vlist]

theorem pyEqV_str_self (a : String) : pyEqV (.str a) (.str a) = true := by
  simp [pyEqV]

theorem depNameE_of_wf (d : Val) (hd : isDictV d = true)
    (hn : (depNameOf d).isSome = true) :
    depNameE d = .ok ((depNameOf d).getD (.str "")) := by
  unfold depNameE
  rw [show asDictPairs d = .ok (toPairs d) by simp [asDictPairs, hd],
    except_bind_ok]
  cases hx : alookup "resource_name" (toPairs d) with
  | none => rw [show depNameOf d = none from hx] at hn; simp at hn
  | some n => simp [depNameOf, hx]

theorem depNames_of_wf :
    ∀ ds : List Val, (∀ d ∈ ds, isDictV d = true ∧ (depNameOf d).isSome = true) →
      depNames ds = .ok (ds.filterMap depNameOf)
  | [], _ => rfl
  | d :: rest, h => by
    have hd := h d (List.mem_cons_self d rest)
    obtain ⟨n, hn⟩ := Option.isSome_iff_exists.mp hd.2
    rw [depNames, depNameE_of_wf d hd.1 hd.2, except_bind_ok,
      depNames_of_wf rest (fun x hx => h x (List.mem_cons_of_mem d hx)),
      except_bind_ok, List.filterMap_cons, hn]
    simp [hn]
    rfl

/-- Keep an existing dependency exactly when its name equals none of the
incoming dependency names (Python membership in `dependencies_dict`). -/
def keepDep (addNames : List Val) (d : Val) : Bool :=
  match depNameOf d with
  | some n => !(addNames.any (fun m => pyEqV n m))
  | none => false

theorem joinDeps_of_wf (addNames : List Val) :
    ∀ ds : List Val, (∀ d ∈ ds, isDictV d = true ∧ (depNameOf d).isSome = true) →
      joinDeps addNames ds = .ok (ds.filter (keepDep addNames))
  | [], _ => rfl
  | d :: rest, h => by
    have hd := h d (List.mem_cons_self d rest)
    obtain ⟨n, hn⟩ := Option.isSome_iff_exists.mp hd.2
    rw [joinDeps, depNameE_of_wf d hd.1 hd.2, except_bind_ok,
      joinDeps_of_wf addNames rest (fun x hx => h x (List.mem_cons_of_mem d hx)),
      except_bind_ok, List.filter_cons]
    rw [show keepDep addNames d = !(addNames.any (fun m =>
      pyEqV ((depNameOf d).getD (.str "")) m)) by rw [keepDep, hn]; simp [hn]]
    cases hany : addNames.any (fun m => pyEqV ((depNameOf d).getD (.str "")) m) with
    | true =>
      simp only [hany, Bool.not_true, Bool.false_eq_true, if_false, if_true]
      rfl
    | false =>
      simp only [hany, Bool.not_false, if_true, Bool.false_eq_true, if_false]
      rfl

/-- C6 (amended): for a collision between two composite-type entries,
a sub-resource name present in both `resources` maps raises the fatal
duplicated-sub-resource error; and when the sub-resource maps are disjoint
and both entries carry a truthy (non-empty) `cluster_cache_configuration`,
the fatal duplicated-cache-configuration error is raised.  (The source
tests the cache values for Python truthiness, not presence: a present but
falsy — e.g. empty — configuration on either side does not trigger the
error; see the counterexample.) -/
theorem C6_compositeCollisionFatalChecks
    (meta : Manifest) (name : String) (initialItem additionalItem : Entry)
    (ri ra : List (String × Val))
    (hm : alookup name meta = some initialItem)
    (ha : alookup "resource_type" additionalItem =
      some (.str API_GATEWAY_TYPE))
    (hi : alookup "resource_type" initialItem = some (.str API_GATEWAY_TYPE))
    (hri : alookup "resources" initialItem = some (vdict ri))
    (hra : alookup "resources" additionalItem = some (vdict ra)) :
    (∀ sub, (ri.map Prod.fst).find?
        (fun k => decide (k ∈ ra.map Prod.fst)) = some sub →
      checkDuplicatedResources meta name additionalItem =
        .error (.duplicateSubResource name sub)) ∧
    ((ri.map Prod.fst).find?
        (fun k => decide (k ∈ ra.map Prod.fst)) = none →
      optTruthy (alookup "cluster_cache_configuration" initialItem) = true →
      optTruthy (alookup "cluster_cache_configuration" additionalItem) = true →
      checkDuplicatedResources meta name additionalItem =
        .error (.duplicateCacheConfig name)) := by
  have hemp : initialItem.isEmpty = false := entry_isEmpty_false_of_lookup hi
  have hstep : checkDuplicatedResources meta name additionalItem =
      mergeApis name initialItem additionalItem := by
    simp [checkDuplicatedResources, hm, ha, hi, hemp, pyEqV_str_self]
  constructor
  · intro sub hfind
    rw [hstep]
    have hscan : scanDuplicatedSubResources name ri additionalItem =
        .error (.duplicateSubResource name sub) := by
      cases ri with
      | nil => simp [List.find?] at hfind
      | cons p rt =>
        simp only [scanDuplicatedSubResources, kget, hra, asDictPairs_vdict,
          except_bind_ok, except_bind_error, except_throw, hfind]
    simp only [mergeApis, kget, hri, asDictPairs_vdict, except_bind_ok,
      except_bind_error, hscan]
  · intro hfind hci hca
    rw [hstep]
    have hscan : scanDuplicatedSubResources name ri additionalItem =
        pure () := by
      cases ri with
      | nil => rfl
      | cons p rt =>
        simp only [scanDuplicatedSubResources, kget, hra, asDictPairs_vdict,
          except_bind_ok, except_bind_error, except_throw, hfind]
    simp only [mergeApis, kget, hri, asDictPairs_vdict, except_bind_ok,
      except_bind_error, except_throw, hscan, hci, hca,
      Bool.and_self, if_true]
    rfl

theorem alookup_mem_of_some {α : Type} (k : String) :
    ∀ (l : List (String × α)) (v : α), alookup k l = some v →
      k ∈ l.map Prod.fst
  | [], v, h => by simp [alookup] at h
  | p :: t, v, h => by
    by_cases hp : p.1 = k
    · simp [hp]
    · simp only [alookup, hp, if_false] at h
      simp [alookup_mem_of_some k t v h]

theorem alookup_none_iff_forall {α : Type} (k : String) :
    ∀ l : List (String × α), alookup k l = none ↔ ∀ p ∈ l, p.1 ≠ k
  | [] => by simp [alookup]
  | p :: t => by
    by_cases hp : p.1 = k
    · simp [alookup, hp]
    · simp [alookup, hp, alookup_none_iff_forall k t]

theorem alookup_foldl_dinsert_notin (k : String) :
    ∀ (ri : List (String × Val)) (acc : List (String × Val)),
      (∀ p ∈ ri, p.1 ≠ k) →
      alookup k (ri.foldl (fun acc p => dinsert acc p.1 p.2) acc) =
        alookup k acc
  | [], acc, _ => rfl
  | p :: rt, acc, h => by
    rw [List.foldl_cons,
      alookup_foldl_dinsert_notin k rt _
        (fun q hq => h q (List.mem_cons_of_mem p hq)),
      alookup_dinsert_ne p.1 k p.2
        (fun he => (h p (List.mem_cons_self p rt)) he.symm)]

theorem alookup_foldl_dinsert_mem (k : String) (v : Val) :
    ∀ (ri : List (String × Val)) (acc : List (String × Val)),
      (ri.map Prod.fst).Nodup → alookup k ri = some v →
      alookup k (ri.foldl (fun acc p => dinsert acc p.1 p.2) acc) = some v
  | [], acc, _, h => by simp [alookup] at h
  | p :: rt, acc, hnd, h => by
    rw [List.map_cons, List.nodup_cons] at hnd
    rw [List.foldl_cons]
    by_cases hp : p.1 = k
    · have hv : p.2 = v := by
        simp only [alookup, hp, if_true] at h
        exact Option.some.inj h
      have hrt : ∀ q ∈ rt, q.1 ≠ k := by
        intro q hq he
        exact hnd.1 (by rw [hp, ← he]; exact List.mem_map_of_mem Prod.fst hq)
      rw [alookup_foldl_dinsert_notin k rt _ hrt,
        show dinsert acc p.1 p.2 = dinsert acc k v by rw [hp, hv]]
      exact alookup_dinsert_self k v acc
    · simp only [alookup, hp, if_false] at h
      exact alookup_foldl_dinsert_mem k v rt _ hnd.2 h

theorem alookup_update_union (ri ra : List (String × Val))
    (hrn : (ri.map Prod.fst).Nodup)
    (hdisj : ∀ kk ∈ ri.map Prod.fst, kk ∉ ra.map Prod.fst) (k : String) :
    alookup k (ri.foldl (fun acc p => dinsert acc p.1 p.2) ra) =
      (alookup k ra).or (alookup k ri) := by
  cases hka : alookup k ra with
  | some v =>
    have hmem : k ∈ ra.map Prod.fst := alookup_mem_of_some k ra v hka
    have hnotin : ∀ p ∈ ri, p.1 ≠ k := by
      intro p hp he
      exact hdisj p.1 (List.mem_map_of_mem Prod.fst hp) (he ▸ hmem)
    rw [alookup_foldl_dinsert_notin k ri ra hnotin, hka]
    rfl
  | none =>
    cases hki : alookup k ri with
    | some w =>
      rw [alookup_foldl_dinsert_mem k w ri ra hrn hki]
      rfl
    | none =>
      have hnotin : ∀ p ∈ ri, p.1 ≠ k :=
        (alookup_none_iff_forall k ri).mp hki
      rw [alookup_foldl_dinsert_notin k ri ra hnotin, hka]
      rfl

theorem pyAdd_vlist (li la : List Val) :
    pyAdd (vlist li) (vlist la) = .ok (vlist (li ++ la)) := by
  cases li with
  | nil =>
    cases la with
    | nil => rfl
    | cons b lb => simp [pyAdd, vlist, isSeqV, toListV, toListV_vlist]
  | cons a ln =>
    cases la with
    | nil => simp [pyAdd, vlist, isSeqV, toListV, toListV_vlist]
    | cons b lb => simp [pyAdd, vlist, isSeqV, toListV, toListV_vlist]

theorem alookup_carryCache_ne (k : String) (hk : k ≠ "cluster_cache_configuration")
    (initialItem additionalItem : Entry) :
    alookup k (carryCache initialItem additionalItem) =
      alookup k additionalItem := by
  unfold carryCache
  cases hic : alookup "cluster_cache_configuration" initialItem with
  | none => rfl
  | some c =>
    cases htc : c.truthy with
    | true =>
      simp only [htc, if_true]
      exact alookup_dinsert_ne _ k c hk additionalItem
    | false => simp [htc]

theorem alookup_carryCache_truthy (initialItem additionalItem : Entry)
    (h : optTruthy (alookup "cluster_cache_configuration" initialItem) = true) :
    alookup "cluster_cache_configuration"
        (carryCache initialItem additionalItem) =
      alookup "cluster_cache_configuration" initialItem := by
  unfold carryCache
  cases hic : alookup "cluster_cache_configuration" initialItem with
  | none => rw [hic] at h; simp [optTruthy] at h
  | some c =>
    rw [hic] at h
    simp only [optTruthy] at h
    simp only [h, if_true]
    exact alookup_dinsert_self _ c additionalItem

theorem alookup_carryCache_falsy (initialItem additionalItem : Entry)
    (h : optTruthy (alookup "cluster_cache_configuration" initialItem) = false) :
    alookup "cluster_cache_configuration"
        (carryCache initialItem additionalItem) =
      alookup "cluster_cache_configuration" additionalItem := by
  unfold carryCache
  cases hic : alookup "cluster_cache_configuration" initialItem with
  | none => rfl
  | some c =>
    rw [hic] at h
    simp only [optTruthy] at h
    simp [h]

theorem alookup_carryDeployStage_ne (k : String) (hk : k ≠ "deploy_stage")
    (initialItem mergedSoFar : Entry) :
    alookup k (carryDeployStage initialItem mergedSoFar) =
      alookup k mergedSoFar := by
  unfold carryDeployStage
  cases hic : alookup "deploy_stage" initialItem with
  | none => rfl
  | some ds =>
    cases htc : ds.truthy with
    | true =>
      simp only [htc, if_true]
      exact alookup_dinsert_ne _ k ds hk mergedSoFar
    | false => simp [htc]

theorem alookup_carryDeployStage_truthy (initialItem mergedSoFar : Entry)
    (ds : Val) (h : alookup "deploy_stage" initialItem = some ds)
    (htr : ds.truthy = true) :
    alookup "deploy_stage" (carryDeployStage initialItem mergedSoFar) =
      some ds := by
  unfold carryDeployStage
  rw [h]
  simp only [htr, if_true]
  exact alookup_dinsert_self _ ds mergedSoFar

theorem except_pure_eq_ok {ε α : Type} (a : α) :
    (pure a : Except ε α) = .ok a := rfl

/-- C1 (amended): merging two API-gateway entries with disjoint
sub-resource maps and at most one side carrying a truthy (non-empty)
`cluster_cache_configuration` returns the incoming entry merged so that:
its `resources` map is the union of both maps; its `dependencies` list
keeps all of incoming's elements and appends every existing dependency
whose `resource_name` is absent from incoming's list; a truthy
`cluster_cache_configuration` carried by the existing entry (and otherwise
incoming's own, possibly absent, configuration) appears in the merged
entry; a truthy existing `deploy_stage` overrides incoming's; and
`apply_changes` is existing's list followed by incoming's.  (The source
tests cache and deploy-stage values for Python truthiness, not presence: a
present but falsy value on the existing side is dropped rather than
carried over; see the counterexample.) -/
theorem C1_compositeMerge
    (meta : Manifest) (name : String) (initialItem additionalItem : Entry)
    (ri ra : List (String × Val)) (di da li la : List Val)
    (hm : alookup name meta = some initialItem)
    (ha : alookup "resource_type" additionalItem =
      some (.str API_GATEWAY_TYPE))
    (hi : alookup "resource_type" initialItem = some (.str API_GATEWAY_TYPE))
    (hri : alookup "resources" initialItem = some (vdict ri))
    (hra : alookup "resources" additionalItem = some (vdict ra))
    (hrn : (ri.map Prod.fst).Nodup)
    (hdisj : ∀ kk ∈ ri.map Prod.fst, kk ∉ ra.map Prod.fst)
    (hcache : (optTruthy (alookup "cluster_cache_configuration" initialItem)
      && optTruthy (alookup "cluster_cache_configuration" additionalItem))
      = false)
    (hdi : alookup "dependencies" initialItem = some (vlist di))
    (hda : alookup "dependencies" additionalItem = some (vlist da))
    (hwdi : ∀ d ∈ di, isDictV d = true ∧ (depNameOf d).isSome = true)
    (hwda : ∀ d ∈ da, isDictV d = true ∧ (depNameOf d).isSome = true)
    (hli : (alookup "apply_changes" initialItem).getD (vlist []) = vlist li)
    (hla : (alookup "apply_changes" additionalItem).getD (vlist []) =
      vlist la) :
    ∃ merged,
      checkDuplicatedResources meta name additionalItem =
        .ok (some merged) ∧
      (∀ k, alookup k (toPairs ((alookup "resources" merged).getD .dnil)) =
        (alookup k ra).or (alookup k ri)) ∧
      alookup "dependencies" merged =
        some (vlist (da ++ di.filter (keepDep (da.filterMap depNameOf)))) ∧
      (optTruthy (alookup "cluster_cache_configuration" initialItem) = true →
        alookup "cluster_cache_configuration" merged =
          alookup "cluster_cache_configuration" initialItem) ∧
      (optTruthy (alookup "cluster_cache_configuration" initialItem) = false →
        alookup "cluster_cache_configuration" merged =
          alookup "cluster_cache_configuration" additionalItem) ∧
      (∀ ds, alookup "deploy_stage" initialItem = some ds →
        ds.truthy = true →
        alookup "deploy_stage" merged = some ds) ∧
      alookup "apply_changes" merged = some (vlist (li ++ la)) := by
  have hemp : initialItem.isEmpty = false := entry_isEmpty_false_of_lookup hi
  have hstep : checkDuplicatedResources meta name additionalItem =
      mergeApis name initialItem additionalItem := by
    simp [checkDuplicatedResources, hm, ha, hi, hemp, pyEqV_str_self]
  have hfind : (ri.map Prod.fst).find?
      (fun k => decide (k ∈ ra.map Prod.fst)) = none :=
    List.find?_eq_none.mpr (fun x hx => by simpa using hdisj x hx)
  have hscan : scanDuplicatedSubResources name ri additionalItem =
      pure () := by
    cases ri with
    | nil => rfl
    | cons p rt =>
      simp only [scanDuplicatedSubResources, kget, hra, asDictPairs_vdict,
        except_bind_ok, except_bind_error, except_throw, hfind]
  have hnames : depNames da = .ok (da.filterMap depNameOf) :=
    depNames_of_wf da hwda
  have hjoin : joinDeps (da.filterMap depNameOf) di =
      .ok (di.filter (keepDep (da.filterMap depNameOf))) :=
    joinDeps_of_wf (da.filterMap depNameOf) di hwdi
  have h1da : alookup "dependencies"
      (carryCache initialItem additionalItem) = some (vlist da) := by
    rw [alookup_carryCache_ne _ (by decide), hda]
  have h2ra : alookup "resources"
      (dinsert (carryCache initialItem additionalItem) "dependencies"
        (vlist (da ++ di.filter (keepDep (da.filterMap depNameOf))))) =
      some (vdict ra) := by
    rw [alookup_dinsert_ne _ _ _ (by decide),
      alookup_carryCache_ne _ (by decide), hra]
  have h4ap : alookup "apply_changes"
      (carryDeployStage initialItem
        (dinsert
          (dinsert (carryCache initialItem additionalItem) "dependencies"
            (vlist (da ++ di.filter (keepDep (da.filterMap depNameOf)))))
          "resources"
          (vdict (ri.foldl (fun acc p => dinsert acc p.1 p.2) ra)))) =
      alookup "apply_changes" additionalItem := by
    rw [alookup_carryDeployStage_ne _ (by decide),
      alookup_dinsert_ne _ _ _ (by decide),
      alookup_dinsert_ne _ _ _ (by decide),
      alookup_carryCache_ne _ (by decide)]
  have hmain : checkDuplicatedResources meta name additionalItem =
      .ok (some (dinsert
        (carryDeployStage initialItem
          (dinsert
            (dinsert (carryCache initialItem additionalItem) "dependencies"
              (vlist (da ++ di.filter (keepDep (da.filterMap depNameOf)))))
            "resources"
            (vdict (ri.foldl (fun acc p => dinsert acc p.1 p.2) ra))))
        "apply_changes" (vlist (li ++ la)))) := by
    rw [hstep]
    simp only [mergeApis, kget, hri, hdi, asDictPairs_vdict,
      asListVals_vlist, except_pure_eq_ok, except_bind_ok, hscan, hcache,
      Bool.false_eq_true, if_false, h1da, hnames, hjoin, h2ra, hli, h4ap,
      hla, pyAdd_vlist]
  refine ⟨_, hmain, ?_, ?_, ?_, ?_, ?_, ?_⟩
  · intro k
    rw [show alookup "resources" (dinsert
        (carryDeployStage initialItem
          (dinsert
            (dinsert (carryCache initialItem additionalItem) "dependencies"
              (vlist (da ++ di.filter (keepDep (da.filterMap depNameOf)))))
            "resources"
            (vdict (ri.foldl (fun acc p => dinsert acc p.1 p.2) ra))))
        "apply_changes" (vlist (li ++ la))) =
        some (vdict (ri.foldl (fun acc p => dinsert acc p.1 p.2) ra)) by
      rw [alookup_dinsert_ne _ _ _ (by decide),
        alookup_carryDeployStage_ne _ (by decide), alookup_dinsert_self]]
    rw [show (some (vdict (ri.foldl (fun acc p => dinsert acc p.1 p.2)
        ra))).getD Val.dnil =
        vdict (ri.foldl (fun acc p => dinsert acc p.1 p.2) ra) from rfl,
      toPairs_vdict]
    exact alookup_update_union ri ra hrn hdisj k
  · rw [alookup_dinsert_ne _ _ _ (by decide),
      alookup_carryDeployStage_ne _ (by decide),
      alookup_dinsert_ne _ _ _ (by decide), alookup_dinsert_self]
  · intro htr
    rw [alookup_dinsert_ne _ _ _ (by decide),
      alookup_carryDeployStage_ne _ (by decide),
      alookup_dinsert_ne _ _ _ (by decide),
      alookup_dinsert_ne _ _ _ (by decide)]
    exact alookup_carryCache_truthy initialItem additionalItem htr
  · intro htr
    rw [alookup_dinsert_ne _ _ _ (by decide),
      alookup_carryDeployStage_ne _ (by decide),
      alookup_dinsert_ne _ _ _ (by decide),
      alookup_dinsert_ne _ _ _ (by decide)]
    exact alookup_carryCache_falsy initialItem additionalItem htr
  · intro ds hds htr
    rw [alookup_dinsert_ne _ _ _ (by decide)]
    exact alookup_carryDeployStage_truthy initialItem _ ds hds htr
  · exact alookup_dinsert_self _ _ _

theorem C1_compositeMerge_witness :
    ∃ merged,
      checkDuplicatedResources
        [("api", [("resource_type", Val.str "api_gateway"),
          ("resources", vdict [("res1", Val.dnil)]),
          ("dependencies", vlist [vdict [("resource_name", Val.str "a")]])])]
        "api"
        [("resource_type", Val.str "api_gateway"),
          ("resources", vdict [("res2", Val.dnil)]),
          ("dependencies", vlist [vdict [("resource_name", Val.str "b")]])] =
        .ok (some merged) ∧
      (∀ k, alookup k (toPairs ((alookup "resources" merged).getD .dnil)) =
        (alookup k [("res2", Val.dnil)]).or
          (alookup k [("res1", Val.dnil)])) ∧
      alookup "dependencies" merged =
        some (vlist ([vdict [("resource_name", Val.str "b")]] ++
          [vdict [("resource_name", Val.str "a")]].filter
            (keepDep ([vdict [("resource_name", Val.str "b")]].filterMap
              depNameOf)))) ∧
      (optTruthy (alookup "cluster_cache_configuration"
          [("resource_type", Val.str "api_gateway"),
            ("resources", vdict [("res1", Val.dnil)]),
            ("dependencies",
              vlist [vdict [("resource_name", Val.str "a")]])]) = true →
        alookup "cluster_cache_configuration" merged =
          alookup "cluster_cache_configuration"
            [("resource_type", Val.str "api_gateway"),
              ("resources", vdict [("res1", Val.dnil)]),
              ("dependencies",
                vlist [vdict [("resource_name", Val.str "a")]])]) ∧
      (optTruthy (alookup "cluster_cache_configuration"
          [("resource_type", Val.str "api_gateway"),
            ("resources", vdict [("res1", Val.dnil)]),
            ("dependencies",
              vlist [vdict [("resource_name", Val.str "a")]])]) = false →
        alookup "cluster_cache_configuration" merged =
          alookup "cluster_cache_configuration"
            [("resource_type", Val.str "api_gateway"),
              ("resources", vdict [("res2", Val.dnil)]),
              ("dependencies",
                vlist [vdict [("resource_name", Val.str "b")]])]) ∧
      (∀ ds, alookup "deploy_stage"
          [("resource_type", Val.str "api_gateway"),
            ("resources", vdict [("res1", Val.dnil)]),
            ("dependencies",
              vlist [vdict [("resource_name", Val.str "a")]])] = some ds →
        ds.truthy = true →
        alookup "deploy_stage" merged = some ds) ∧
      alookup "apply_changes" merged =
        some (vlist (([] : List Val) ++ ([] : List Val))) :=
  C1_compositeMerge _ _ _ _ _ _ _ _ _ _ rfl rfl rfl rfl rfl (by decide)
    (by decide) rfl rfl rfl (by decide) (by decide) rfl rfl

theorem C1_compositeMerge_counterexample :
    alookup "cluster_cache_configuration"
      [("resource_type", Val.str "api_gateway"),
        ("resources", Val.dnil), ("dependencies", Val.vnil),
        ("cluster_cache_configuration", Val.dnil)] = some Val.dnil ∧
    checkDuplicatedResources
      [("api", [("resource_type", Val.str "api_gateway"),
        ("resources", Val.dnil), ("dependencies", Val.vnil),
        ("cluster_cache_configuration", Val.dnil)])]
      "api"
      [("resource_type", Val.str "api_gateway"),
        ("resources", Val.dnil), ("dependencies", Val.vnil)] =
      .ok (some [("resource_type", Val.str "api_gateway"),
        ("resources", Val.dnil), ("dependencies", Val.vnil),
        ("apply_changes", Val.vnil)]) ∧
    alookup "cluster_cache_configuration"
      [("resource_type", Val.str "api_gateway"),
        ("resources", Val.dnil), ("dependencies", Val.vnil),
        ("apply_changes", Val.vnil)] = none :=
  ⟨rfl, rfl, rfl⟩

theorem C6_compositeCollisionFatalChecks_witness :
    checkDuplicatedResources
      [("api", [("resource_type", Val.str "api_gateway"),
        ("resources", vdict [("res1", Val.dnil)]),
        ("dependencies", Val.vnil)])]
      "api"
      [("resource_type", Val.str "api_gateway"),
        ("resources", vdict [("res1", Val.dnil)]),
        ("dependencies", Val.vnil)] =
      .error (.duplicateSubResource "api" "res1") :=
  (C6_compositeCollisionFatalChecks
    [("api", [("resource_type", Val.str "api_gateway"),
      ("resources", vdict [("res1", Val.dnil)]),
      ("dependencies", Val.vnil)])]
    "api"
    [("resource_type", Val.str "api_gateway"),
      ("resources", vdict [("res1", Val.dnil)]),
      ("dependencies", Val.vnil)]
    [("resource_type", Val.str "api_gateway"),
      ("resources", vdict [("res1", Val.dnil)]),
      ("dependencies", Val.vnil)]
    [("res1", Val.dnil)] [("res1", Val.dnil)]
    rfl rfl rfl rfl rfl).1 "res1" rfl

theorem C6_compositeCollisionFatalChecks_counterexample :
    (alookup "cluster_cache_configuration"
      [("resource_type", Val.str "api_gateway"),
        ("resources", Val.dnil), ("dependencies", Val.vnil),
        ("cluster_cache_configuration", Val.dnil)]).isSome = true ∧
    (alookup "cluster_cache_configuration"
      [("resource_type", Val.str "api_gateway"),
        ("resources", Val.dnil), ("dependencies", Val.vnil),
        ("cluster_cache_configuration",
          Val.dcons "ttl" (Val.num 300) Val.dnil)]).isSome = true ∧
    checkDuplicatedResources
      [("api", [("resource_type", Val.str "api_gateway"),
        ("resources", Val.dnil), ("dependencies", Val.vnil),
        ("cluster_cache_configuration", Val.dnil)])]
      "api"
      [("resource_type", Val.str "api_gateway"),
        ("resources", Val.dnil), ("dependencies", Val.vnil),
        ("cluster_cache_configuration",
          Val.dcons "ttl" (Val.num 300) Val.dnil)] =
      .ok (some [("resource_type", Val.str "api_gateway"),
        ("resources", Val.dnil), ("dependencies", Val.vnil),
        ("cluster_cache_configuration",
          Val.dcons "ttl" (Val.num 300) Val.dnil),
        ("apply_changes", Val.vnil)]) :=
  ⟨rfl, rfl, rfl⟩

theorem erase_eq_eraseIdx_findIdx (a : Val) :
    ∀ l : List Val,
      l.erase a = l.eraseIdx (l.findIdx (fun x => decide (x = a)))
  | [] => rfl
  | b :: t => by
    rw [List.erase_cons, List.findIdx_cons]
    by_cases hb : b = a
    · simp [hb]
    · simp only [show (b == a) = false by simpa using hb,
        show decide (b = a) = false by simpa using hb, Bool.false_eq_true,
        if_false, cond_false, List.eraseIdx_cons_succ,
        erase_eq_eraseIdx_findIdx a t]

theorem findIdx_append_first (p : Val → Bool) :
    ∀ (l1 : List Val) (x : Val) (l2 : List Val),
      (∀ y ∈ l1, p y = false) → p x = true →
      (l1 ++ x :: l2).findIdx p = l1.length
  | [], x, l2, _, hx => by simp [List.findIdx_cons, hx]
  | y :: t, x, l2, h, hx => by
    rw [List.cons_append, List.findIdx_cons,
      h y (List.mem_cons_self y t), cond_false,
      findIdx_append_first p t x l2
        (fun z hz => h z (List.mem_cons_of_mem y hz)) hx, List.length_cons]

theorem eraseIdx_append_length :
    ∀ (l1 : List Val) (x : Val) (l2 : List Val),
      (l1 ++ x :: l2).eraseIdx l1.length = l1 ++ l2
  | [], x, l2 => rfl
  | y :: t, x, l2 => by
    rw [List.cons_append, List.length_cons, List.eraseIdx_cons_succ,
      eraseIdx_append_length t x l2, List.cons_append]

theorem pyLoop_no_match (oldValue newValue : String) (g : Val → Val) :
    ∀ (fuel : Nat) (l : List Val) (i : Nat),
      (∀ x ∈ l.drop i, (∃ s, x = Val.str s) ∧ x ≠ Val.str oldValue) →
      pyLoop oldValue newValue g fuel l i = l
  | 0, l, i, _ => rfl
  | fuel + 1, l, i, h => by
    by_cases hi : i < l.length
    · rw [pyLoop, dif_pos hi]
      have hmem : l[i] ∈ l.drop i := by
        rw [List.drop_eq_getElem_cons hi]
        exact List.mem_cons_self _ _
      obtain ⟨⟨s, hs⟩, hnes⟩ := h _ hmem
      have hso : ¬ s = oldValue := fun he => hnes (by rw [hs, he])
      have hrec : ∀ x ∈ l.drop (i + 1),
          (∃ s, x = Val.str s) ∧ x ≠ Val.str oldValue := by
        intro x hx
        have hx2 : x ∈ l.drop i := by
          rw [List.drop_eq_getElem_cons hi]
          exact List.mem_cons_of_mem _ hx
        exact h x hx2
      simp only [hs]
      rw [if_neg hso]
      exact pyLoop_no_match oldValue newValue g fuel l (i + 1) hrec
    · rw [pyLoop, dif_neg hi]

theorem pyLoop_single (oldValue newValue : String) (g : Val → Val)
    (hne : oldValue ≠ newValue) :
    ∀ (fuel : Nat) (l : List Val) (i : Nat),
      l.length ≤ fuel + i →
      (∀ x ∈ l.drop i, ∃ s, x = Val.str s) →
      Val.str oldValue ∉ l.take i →
      l.count (Val.str oldValue) ≤ 1 →
      pyLoop oldValue newValue g fuel l i =
        if Val.str oldValue ∈ l.drop i
        then l.erase (Val.str oldValue) ++ [Val.str newValue]
        else l
  | 0, l, i, hlen, _, _, _ => by
    have hdrop : l.drop i = [] := List.drop_eq_nil_of_le (by omega)
    rw [pyLoop, hdrop]
    simp
  | fuel + 1, l, i, hlen, hstr, htake, hcnt => by
    by_cases hi : i < l.length
    · have hdi : l.drop i = l[i] :: l.drop (i + 1) :=
        List.drop_eq_getElem_cons hi
      have hmem : l[i] ∈ l.drop i := by
        rw [hdi]; exact List.mem_cons_self _ _
      obtain ⟨s, hs⟩ := hstr _ hmem
      rw [pyLoop, dif_pos hi]
      simp only [hs]
      by_cases hso : s = oldValue
      · have hs2 : l[i] = Val.str oldValue := by rw [hs, hso]
        have hdecomp : l.take i ++ Val.str oldValue :: l.drop (i + 1) = l := by
          rw [show Val.str oldValue :: l.drop (i + 1) = l.drop i by
            rw [hdi, hs2], List.take_append_drop]
        have hlt : (l.take i).length = i := by
          rw [List.length_take]
          exact Nat.min_eq_left hi.le
        have hfi : l.findIdx (fun x => decide (x = Val.str oldValue)) = i := by
          have hfi0 := findIdx_append_first
            (fun x => decide (x = Val.str oldValue)) (l.take i)
            (Val.str oldValue) (l.drop (i + 1))
            (fun y hy => by
              simp only [decide_eq_false_iff_not]
              intro he
              exact htake (he ▸ hy))
            (by simp)
          rw [hdecomp, hlt] at hfi0
          exact hfi0
        have heid : l.eraseIdx i = l.take i ++ l.drop (i + 1) := by
          have h0 := eraseIdx_append_length (l.take i) (Val.str oldValue)
            (l.drop (i + 1))
          rw [hlt, hdecomp] at h0
          exact h0
        have hcd : (l.drop (i + 1)).count (Val.str oldValue) = 0 := by
          have h0 : l.count (Val.str oldValue) =
              (l.take i ++ Val.str oldValue :: l.drop (i + 1)).count
                (Val.str oldValue) := by rw [hdecomp]
          rw [List.count_append, List.count_cons] at h0
          simp only [beq_self_eq_true, if_true] at h0
          omega
        have hnodrop : Val.str oldValue ∉ l.drop (i + 1) :=
          List.count_eq_zero.mp hcd
        have hmemo : Val.str oldValue ∈ l.drop i := by
          rw [hdi, hs2]
          exact List.mem_cons_self _ _
        rw [if_pos hmemo, if_pos hso]
        rw [erase_eq_eraseIdx_findIdx, hfi, heid]
        have hl2 : ((l.take i ++ l.drop (i + 1)) ++ [Val.str newValue]).drop
            (i + 1) = (l.drop (i + 1) ++ [Val.str newValue]).drop 1 := by
          rw [List.append_assoc, show i + 1 = (l.take i).length + 1 by
            rw [hlt]]
          exact List.drop_append 1
        apply pyLoop_no_match
        intro x hx
        rw [hl2] at hx
        have hx2 : x ∈ l.drop (i + 1) ++ [Val.str newValue] :=
          List.mem_of_mem_drop hx
        rcases List.mem_append.mp hx2 with hx3 | hx3
        · have hx4 : x ∈ l.drop i := by
            rw [hdi]
            exact List.mem_cons_of_mem _ hx3
          refine ⟨hstr x hx4, ?_⟩
          intro he
          exact hnodrop (he ▸ hx3)
        · rcases List.mem_singleton.mp hx3 with rfl
          refine ⟨⟨newValue, rfl⟩, ?_⟩
          intro he
          exact hne (Val.str.inj he).symm
      · rw [if_neg hso]
        have htake2 : Val.str oldValue ∉ l.take (i + 1) := by
          rw [List.take_succ, List.getElem?_eq_getElem hi]
          intro hx
          rcases List.mem_append.mp hx with hx2 | hx2
          · exact htake hx2
          · rw [hs] at hx2
            simp only [Option.toList_some, List.mem_singleton] at hx2
            exact hso (Val.str.inj hx2).symm
        have hstr2 : ∀ x ∈ l.drop (i + 1), ∃ t, x = Val.str t := by
          intro x hx
          have hx2 : x ∈ l.drop i := by
            rw [hdi]
            exact List.mem_cons_of_mem _ hx
          exact hstr x hx2
        have ih := pyLoop_single oldValue newValue g hne fuel l (i + 1)
          (by omega) hstr2 htake2 hcnt
        rw [ih]
        have hmm : (Val.str oldValue ∈ l.drop i) ↔
            (Val.str oldValue ∈ l.drop (i + 1)) := by
          rw [hdi, List.mem_cons, hs]
          constructor
          · rintro (he | hm)
            · exact absurd (Val.str.inj he).symm hso
            · exact hm
          · exact fun hm => Or.inr hm
        by_cases hm : Val.str oldValue ∈ l.drop (i + 1)
        · rw [if_pos hm, if_pos (hmm.mpr hm)]
        · rw [if_neg hm, if_neg (fun hx => hm (hmm.mp hx))]
    · have hdrop : l.drop i = [] := List.drop_eq_nil_of_le (by omega)
      rw [pyLoop, dif_neg hi, hdrop]
      simp

theorem charsBeginWith_refl : ∀ l : List Char, charsBeginWith l l = true
  | [] => rfl
  | c :: t => by simp [charsBeginWith, charsBeginWith_refl t]

theorem pyReplace_self (a b : String) : pyReplace a a b = b := by
  unfold pyReplace
  cases ha : a.data with
  | nil => simp [ha]
  | cons c cs =>
    simp only [ha]
    rw [show (c :: cs).length = cs.length + 1 from rfl, replGoF,
      if_pos (charsBeginWith_refl (c :: cs)),
      show (c :: cs).drop (c :: cs).length = [] from List.drop_length _,
      replGoF]
    simp

/-- C8 (amended): during substitution, in every manifest sequence whose
elements are all strings, at most one of which equals the token (and with
the token different from its replacement), the element equal to the token
is removed from its position and the replacement appended at the end of
the sequence, and the remaining elements keep their relative order.  (On a
sequence with repeated occurrences the CPython iteration, which mutates
the list it is scanning, skips the element that slides into the freed
slot, so a second adjacent occurrence survives: see the counterexample.
Dict elements are resolved in place and do not affect the order.) -/
theorem C8_sequenceTokenMove (oldValue newValue : String) (f : Nat)
    (l : List Val) (hne : oldValue ≠ newValue)
    (hstr : ∀ x ∈ l, ∃ s, x = Val.str s)
    (hcnt : l.count (Val.str oldValue) ≤ 1) :
    resolveValF oldValue newValue (f + 1) (vlist l) =
      vlist (if Val.str oldValue ∈ l
        then l.erase (Val.str oldValue) ++ [Val.str newValue]
        else l) := by
  cases l with
  | nil => simp [vlist, resolveValF, pyLoop]
  | cons h t =>
    have hv : vlist (h :: t) = Val.vcons h (vlist t) := rfl
    have htl : toListV (Val.vcons h (vlist t)) = h :: t := by
      rw [toListV, toListV_vlist]
    rw [hv]
    simp only [resolveValF, htl]
    rw [pyLoop_single oldValue newValue (resolveValF oldValue newValue f)
      hne (h :: t).length (h :: t) 0 (by omega)
      (by simpa using hstr) (by simp) hcnt]
    rw [List.drop_zero]

theorem C8_sequenceTokenMove_witness :
    resolveValF "a" "n" 1 (vlist [Val.str "a", Val.str "b"]) =
      vlist (if Val.str "a" ∈ [Val.str "a", Val.str "b"]
        then [Val.str "a", Val.str "b"].erase (Val.str "a") ++ [Val.str "n"]
        else [Val.str "a", Val.str "b"]) :=
  C8_sequenceTokenMove "a" "n" 0 [Val.str "a", Val.str "b"] (by decide)
    (by
      intro x hx
      rcases List.mem_cons.mp hx with rfl | hx2
      · exact ⟨"a", rfl⟩
      · rcases List.mem_singleton.mp hx2 with rfl
        exact ⟨"b", rfl⟩)
    (by decide)

theorem C8_sequenceTokenMove_counterexample :
    resolveNamesInMeta "tok" "new"
      [("r", [("xs", vlist [Val.str "tok", Val.str "tok"])])] =
      [("r", [("xs", vlist [Val.str "tok", Val.str "new"])])] ∧
    Val.str "tok" ∈ [Val.str "tok", Val.str "new"] :=
  ⟨rfl, by decide⟩

/-- C3 (amended): during the rename rewrite, a string occurring as a
mapping value anywhere in the manifest follows the replacement rule: a
value equal to the old name is replaced whole; a value that contains the
old name and starts with `arn` has its occurrences replaced; every other
string value is unchanged; non-string mapping values are rewritten
recursively.  (Strings occurring as sequence elements are only rewritten
on exact equality — the `arn` substring rule does not apply inside
sequences, and sequences nested directly inside sequences are not entered:
see the counterexample, where an `arn`-prefixed string containing the old
name sits inside a list and is left unchanged.) -/
theorem C3_renameRewriteRule (oldValue newValue : String) (m : Manifest) :
    (∀ k, alookup k (resolveNamesInMeta oldValue newValue m) =
      (alookup k m).map
        (fun e => rewriteEntryF oldValue newValue (entryFuel e) e)) ∧
    (∀ (f : Nat) (e : Entry) (k : String),
      alookup k (rewriteEntryF oldValue newValue f e) =
        (alookup k e).map (dictValRule oldValue newValue f)) ∧
    (∀ (f : Nat) (s : String), s = oldValue →
      dictValRule oldValue newValue f (.str s) = .str newValue) ∧
    (∀ (f : Nat) (s : String), s ≠ oldValue →
      (strContains s oldValue && strBeginsWith s "arn") = true →
      dictValRule oldValue newValue f (.str s) =
        .str (pyReplace s oldValue newValue)) ∧
    (∀ (f : Nat) (s : String), s ≠ oldValue →
      (strContains s oldValue && strBeginsWith s "arn") = false →
      dictValRule oldValue newValue f (.str s) = .str s) ∧
    (∀ (f : Nat) (w : Val), isDictV w = true ∨ isSeqV w = true →
      dictValRule oldValue newValue f w =
        resolveValF oldValue newValue f w) := by
  refine ⟨?_, ?_, ?_, ?_, ?_, ?_⟩
  · intro k
    rw [resolveNamesInMeta]
    exact alookup_map_value
      (fun e => rewriteEntryF oldValue newValue (entryFuel e) e) k m
  · intro f e k
    rw [rewriteEntryF]
    exact alookup_map_value (dictValRule oldValue newValue f) k e
  · intro f s hs
    subst hs
    simp [dictValRule, ruleStr, pyReplace_self]
  · intro f s hs harn
    simp [dictValRule, ruleStr, show (s == oldValue) = false by simpa using hs,
      harn]
  · intro f s hs harn
    simp [dictValRule, ruleStr, show (s == oldValue) = false by simpa using hs,
      harn]
  · intro f w hw
    cases w with
    | str s =>
      rcases hw with hw | hw <;> simp [isDictV, isSeqV] at hw
    | num n =>
      rcases hw with hw | hw <;> simp [isDictV, isSeqV] at hw
    | vnil => rfl
    | vcons a b => rfl
    | dnil => rfl
    | dcons k v t => rfl

theorem C3_renameRewriteRule_witness :
    dictValRule "old" "new" 1 (.str "arn-old-x") =
      .str (pyReplace "arn-old-x" "old" "new") :=
  (C3_renameRewriteRule "old" "new" []).2.2.2.1 1 "arn-old-x" (by decide) rfl

theorem C3_renameRewriteRule_counterexample :
    resolveNamesInMeta "old" "new"
      [("r", [("a", vlist [Val.str "arn-old-x"])])] =
      [("r", [("a", vlist [Val.str "arn-old-x"])])] ∧
    strBeginsWith "arn-old-x" "arn" = true ∧
    strContains "arn-old-x" "old" = true ∧
    pyReplace "arn-old-x" "old" "new" = "arn-new-x" :=
  ⟨rfl, rfl, rfl, rfl⟩

/-! ### Key-structure lemmas for the renaming pass -/

theorem hasKey_eq_isSome {α : Type} (k : String) :
    ∀ l : List (String × α), hasKey k l = (alookup k l).isSome
  | [] => rfl
  | (k2, v) :: t => by
    by_cases h : k2 = k <;> simp [hasKey, alookup, h, hasKey_eq_isSome k t]

theorem hasKey_map_value {α β : Type} (g : α → β) (k : String) :
    ∀ l : List (String × α),
      hasKey k (l.map (fun p => (p.1, g p.2))) = hasKey k l
  | [] => rfl
  | (k2, v) :: t => by
    by_cases h : k2 = k <;> simp [hasKey, h, hasKey_map_value g k t]

theorem mem_mkeys : ∀ (m : Manifest) (x : String),
    x ∈ mkeys m ↔ hasKey x m = true
  | [], x => by simp [mkeys, hasKey]
  | (k, v) :: t, x => by
    rw [show mkeys ((k, v) :: t) = k :: mkeys t from rfl, List.mem_cons,
      show hasKey x ((k, v) :: t) = if k = x then true else hasKey x t
        from rfl]
    by_cases h : k = x
    · simp [h]
    · simp [h, mem_mkeys t x, show ¬x = k from fun hh => h hh.symm]

theorem exists_alookup_of_mem_mkeys (m : Manifest) (x : String)
    (h : x ∈ mkeys m) : ∃ e, alookup x m = some e := by
  rw [mem_mkeys, hasKey_eq_isSome] at h
  exact Option.isSome_iff_exists.mp h

theorem mkeys_resolveNamesInMeta (o n : String) :
    ∀ m : Manifest, mkeys (resolveNamesInMeta o n m) = mkeys m
  | [] => rfl
  | p :: t => congrArg (List.cons p.1) (mkeys_resolveNamesInMeta o n t)

theorem mkeys_aliasPass :
    ∀ (aliases : List (String × String)) (m : Manifest),
      mkeys (aliasPass aliases m) = mkeys m
  | [], _ => rfl
  | a :: t, m =>
    (mkeys_aliasPass t _).trans (mkeys_resolveNamesInMeta _ _ m)

theorem hasKeyRT_resolveNamesInMeta (o n : String) (m : Manifest)
    (h : ∀ p ∈ m, hasKey "resource_type" p.2 = true) :
    ∀ p ∈ resolveNamesInMeta o n m, hasKey "resource_type" p.2 = true := by
  intro p hp
  rcases List.mem_map.mp hp with ⟨q, hq, rfl⟩
  show hasKey "resource_type" (rewriteEntryF o n (entryFuel q.2) q.2) = true
  rw [rewriteEntryF, hasKey_map_value]
  exact h q hq

theorem hasKeyRT_aliasPass :
    ∀ (aliases : List (String × String)) (m : Manifest),
      (∀ p ∈ m, hasKey "resource_type" p.2 = true) →
      ∀ p ∈ aliasPass aliases m, hasKey "resource_type" p.2 = true
  | [], m, h => h
  | a :: t, m, h =>
    hasKeyRT_aliasPass t _ (hasKeyRT_resolveNamesInMeta _ _ m h)

theorem mkeys_dinsert_fresh (l : Manifest) (k : String) (v : Entry)
    (h : hasKey k l = false) : mkeys (dinsert l k v) = mkeys l ++ [k] := by
  rw [dinsert, if_neg (by simp [h])]
  simp [mkeys]

theorem mkeys_eraseP (c : String) : ∀ m : Manifest,
    mkeys (m.eraseP (fun p => decide (p.1 = c))) =
      (mkeys m).eraseP (fun x => decide (x = c))
  | [] => rfl
  | (k, v) :: t => by
    by_cases h : k = c
    · rw [show ((k, v) :: t).eraseP (fun p => decide (p.1 = c)) = t by
          simp [List.eraseP_cons, h],
        show mkeys ((k, v) :: t) = k :: mkeys t from rfl,
        show (k :: mkeys t).eraseP (fun x => decide (x = c)) = mkeys t by
          simp [List.eraseP_cons, h]]
    · rw [show ((k, v) :: t).eraseP (fun p => decide (p.1 = c)) =
            (k, v) :: t.eraseP (fun p => decide (p.1 = c)) by
          simp [List.eraseP_cons, h],
        show mkeys ((k, v) :: t.eraseP (fun p => decide (p.1 = c))) =
            k :: mkeys (t.eraseP (fun p => decide (p.1 = c))) from rfl,
        mkeys_eraseP c t,
        show mkeys ((k, v) :: t) = k :: mkeys t from rfl,
        show (k :: mkeys t).eraseP (fun x => decide (x = c)) =
            k :: (mkeys t).eraseP (fun x => decide (x = c)) by
          simp [List.eraseP_cons, h]]

theorem mem_eraseP_nodup :
    ∀ (l : List String) (c x : String), l.Nodup → c ∈ l →
      (x ∈ l.eraseP (fun y => decide (y = c)) ↔ x ∈ l ∧ x ≠ c)
  | [], c, x, _, hc => absurd hc (List.not_mem_nil c)
  | a :: t, c, x, hnd, hc => by
    rcases List.nodup_cons.mp hnd with ⟨ha, hndt⟩
    by_cases hac : a = c
    · subst hac
      rw [show (a :: t).eraseP (fun y => decide (y = a)) = t by
        simp [List.eraseP_cons]]
      constructor
      · intro hx
        exact ⟨List.mem_cons_of_mem _ hx, fun hxc => ha (hxc ▸ hx)⟩
      · rintro ⟨hx, hxc⟩
        rcases List.mem_cons.mp hx with rfl | h2
        · exact absurd rfl hxc
        · exact h2
    · have hct : c ∈ t := by
        rcases List.mem_cons.mp hc with rfl | h2
        · exact absurd rfl hac
        · exact h2
      rw [show (a :: t).eraseP (fun y => decide (y = c)) =
            a :: t.eraseP (fun y => decide (y = c)) by
          simp [List.eraseP_cons, hac]]
      have IH := mem_eraseP_nodup t c x hndt hct
      constructor
      · intro hx
        rcases List.mem_cons.mp hx with rfl | h2
        · exact ⟨List.mem_cons_self _ _, hac⟩
        · rcases IH.mp h2 with ⟨h3, h4⟩
          exact ⟨List.mem_cons_of_mem _ h3, h4⟩
      · rintro ⟨hx, hxc⟩
        rcases List.mem_cons.mp hx with rfl | h2
        · exact List.mem_cons_self _ _
        · exact List.mem_cons_of_mem _ (IH.mpr ⟨h2, hxc⟩)

theorem computeResolvedNames_eq (cfg : Config) (gs : List String) :
    ∀ m : Manifest, (∀ p ∈ m, hasKey "resource_type" p.2 = true) →
      computeResolvedNames cfg gs m = .ok (renamePairs cfg gs m)
  | [], _ => rfl
  | (name, e) :: rest, hT => by
    have hk : hasKey "resource_type" e = true :=
      hT (name, e) (List.mem_cons_self _ _)
    have hrest := computeResolvedNames_eq cfg gs rest
      (fun p hp => hT p (List.mem_cons_of_mem _ hp))
    obtain ⟨v, hv⟩ : ∃ v, alookup "resource_type" e = some v := by
      rw [hasKey_eq_isSome] at hk
      exact Option.isSome_iff_exists.mp hk
    simp only [computeResolvedNames, kget, hv, except_bind_ok, hrest,
      renamePairs, List.filterMap_cons]
    cases v with
    | str s =>
      by_cases hg : s ∈ gs
      · by_cases hne : name ≠ resolveResourceName cfg name
        · simp [hg, hne, except_pure_eq_ok, renamePairs]
        · simp [hg, hne, except_pure_eq_ok, renamePairs]
      · simp [hg, except_pure_eq_ok, renamePairs]
    | num n => simp [except_pure_eq_ok, renamePairs]
    | vnil => simp [except_pure_eq_ok, renamePairs]
    | vcons a b => simp [except_pure_eq_ok, renamePairs]
    | dnil => simp [except_pure_eq_ok, renamePairs]
    | dcons k w t => simp [except_pure_eq_ok, renamePairs]

theorem renamePairs_mem (cfg : Config) (gs : List String) (m : Manifest)
    (q : String × String) (hq : q ∈ renamePairs cfg gs m) :
    ∃ p ∈ m, q = (p.1, resolveResourceName cfg p.1) := by
  rcases List.mem_filterMap.mp hq with ⟨p, hp, hF⟩
  refine ⟨p, hp, ?_⟩
  cases hv : alookup "resource_type" p.2 with
  | none =>
    simp only [hv] at hF
    exact Option.noConfusion hF
  | some v =>
    cases v with
    | str s =>
      simp only [hv] at hF
      by_cases hc : s ∈ gs ∧ p.1 ≠ resolveResourceName cfg p.1
      · rw [if_pos hc] at hF
        exact (Option.some_inj.mp hF).symm
      · rw [if_neg hc] at hF
        exact absurd hF (by simp)
    | num n =>
      simp only [hv] at hF
      exact Option.noConfusion hF
    | vnil =>
      simp only [hv] at hF
      exact Option.noConfusion hF
    | vcons a b =>
      simp only [hv] at hF
      exact Option.noConfusion hF
    | dnil =>
      simp only [hv] at hF
      exact Option.noConfusion hF
    | dcons k w t =>
      simp only [hv] at hF
      exact Option.noConfusion hF

theorem renamePairs_fst_sublist (cfg : Config) (gs : List String) :
    ∀ m : Manifest,
      List.Sublist ((renamePairs cfg gs m).map Prod.fst) (mkeys m)
  | [] => List.Sublist.refl _
  | p :: t => by
    rw [show mkeys (p :: t) = p.1 :: mkeys t from rfl, renamePairs,
      List.filterMap_cons]
    cases hv : alookup "resource_type" p.2 with
    | none =>
      exact List.Sublist.cons _ (renamePairs_fst_sublist cfg gs t)
    | some v =>
      cases v with
      | str s =>
        by_cases hc : s ∈ gs ∧ p.1 ≠ resolveResourceName cfg p.1
        · have h1 : (if s ∈ gs ∧ p.1 ≠ resolveResourceName cfg p.1 then
              some (p.1, resolveResourceName cfg p.1) else none) =
              some (p.1, resolveResourceName cfg p.1) := if_pos hc
          simp only [h1, List.map_cons]
          exact List.Sublist.cons₂ _ (renamePairs_fst_sublist cfg gs t)
        · have h1 : (if s ∈ gs ∧ p.1 ≠ resolveResourceName cfg p.1 then
              some (p.1, resolveResourceName cfg p.1) else none) =
              none := if_neg hc
          simp only [h1]
          exact List.Sublist.cons _ (renamePairs_fst_sublist cfg gs t)
      | num n => exact List.Sublist.cons _ (renamePairs_fst_sublist cfg gs t)
      | vnil => exact List.Sublist.cons _ (renamePairs_fst_sublist cfg gs t)
      | vcons a b =>
        exact List.Sublist.cons _ (renamePairs_fst_sublist cfg gs t)
      | dnil => exact List.Sublist.cons _ (renamePairs_fst_sublist cfg gs t)
      | dcons k w t2 =>
        exact List.Sublist.cons _ (renamePairs_fst_sublist cfg gs t)

theorem renamePairs_empty (cfg : Config) : ∀ m : Manifest,
    renamePairs cfg [] m = [] := by
  intro m
  rw [renamePairs, List.filterMap_eq_nil_iff]
  intro p hp
  cases hv : alookup "resource_type" p.2 with
  | none => simp
  | some v =>
    cases v with
    | str s => simp
    | num n => simp
    | vnil => simp
    | vcons a b => simp
    | dnil => simp
    | dcons k w t => simp

theorem applyRenames_keys :
    ∀ (rns : List (String × String)) (m : Manifest),
      (mkeys m).Nodup →
      (∀ q ∈ rns, q.1 ∈ mkeys m) →
      (rns.map Prod.fst).Nodup →
      (∀ q ∈ rns, q.2 ∉ mkeys m) →
      (rns.map Prod.snd).Nodup →
      ∃ mf, applyRenames rns m = .ok mf ∧
        ∀ x, x ∈ mkeys mf ↔
          (x ∈ mkeys m ∧ x ∉ rns.map Prod.fst) ∨ x ∈ rns.map Prod.snd
  | [], m, hnd, _, _, _, _ => ⟨m, rfl, by simp⟩
  | (c, r) :: rest, m, hnd, hcur, hfnd, hfresh, hsnd => by
    have hc : c ∈ mkeys m := hcur (c, r) (List.mem_cons_self _ _)
    have hr : r ∉ mkeys m := hfresh (c, r) (List.mem_cons_self _ _)
    obtain ⟨e, he⟩ := exists_alookup_of_mem_mkeys m c hc
    have hfnd2 : (c :: rest.map Prod.fst).Nodup := hfnd
    have hsnd2 : (r :: rest.map Prod.snd).Nodup := hsnd
    have hcf : c ∉ rest.map Prod.fst := (List.nodup_cons.mp hfnd2).1
    have hrs : r ∉ rest.map Prod.snd := (List.nodup_cons.mp hsnd2).1
    have hrestfst : ∀ q ∈ rest, q.1 ∈ mkeys m :=
      fun q hq => hcur q (List.mem_cons_of_mem _ hq)
    have hrestfresh : ∀ q ∈ rest, q.2 ∉ mkeys m :=
      fun q hq => hfresh q (List.mem_cons_of_mem _ hq)
    have hrfs : r ∉ rest.map Prod.fst := by
      intro hmem
      rcases List.mem_map.mp hmem with ⟨q, hq, hq1⟩
      exact hr (hq1 ▸ hrestfst q hq)
    have hkeyE : mkeys (m.eraseP (fun p => decide (p.1 = c))) =
        (mkeys m).eraseP (fun x => decide (x = c)) := mkeys_eraseP c m
    have hndE : ((mkeys m).eraseP (fun x => decide (x = c))).Nodup :=
      (List.eraseP_sublist (mkeys m)).nodup hnd
    have hrE : r ∉ (mkeys m).eraseP (fun x => decide (x = c)) :=
      fun hmem => hr (List.mem_of_mem_eraseP hmem)
    have hhk : hasKey r (m.eraseP (fun p => decide (p.1 = c))) = false := by
      rcases h2 : hasKey r (m.eraseP (fun p => decide (p.1 = c))) with _ | _
      · rfl
      · exact absurd ((mem_mkeys _ r).mpr h2) (by rw [hkeyE]; exact hrE)
    have hkeys2 : mkeys (resolveNamesInMeta c r
        (dinsert (m.eraseP (fun p => decide (p.1 = c))) r e)) =
        (mkeys m).eraseP (fun x => decide (x = c)) ++ [r] := by
      rw [mkeys_resolveNamesInMeta, mkeys_dinsert_fresh _ _ _ hhk, hkeyE]
    have hmem2 : ∀ x, x ∈ mkeys (resolveNamesInMeta c r
        (dinsert (m.eraseP (fun p => decide (p.1 = c))) r e)) ↔
        ((x ∈ mkeys m ∧ x ≠ c) ∨ x = r) := by
      intro x
      rw [hkeys2, List.mem_append, List.mem_singleton,
        mem_eraseP_nodup (mkeys m) c x hnd hc]
    have hnd2 : (mkeys (resolveNamesInMeta c r
        (dinsert (m.eraseP (fun p => decide (p.1 = c))) r e))).Nodup := by
      rw [hkeys2, List.nodup_append]
      refine ⟨hndE, List.nodup_singleton r, ?_⟩
      intro a ha hb
      rw [List.mem_singleton] at hb
      exact hrE (hb ▸ ha)
    have hcur2 : ∀ q ∈ rest, q.1 ∈ mkeys (resolveNamesInMeta c r
        (dinsert (m.eraseP (fun p => decide (p.1 = c))) r e)) := by
      intro q hq
      refine (hmem2 q.1).mpr (Or.inl ⟨hrestfst q hq, ?_⟩)
      intro hqc
      exact hcf (hqc ▸ List.mem_map_of_mem Prod.fst hq)
    have hfresh2 : ∀ q ∈ rest, q.2 ∉ mkeys (resolveNamesInMeta c r
        (dinsert (m.eraseP (fun p => decide (p.1 = c))) r e)) := by
      intro q hq hmem'
      rcases (hmem2 q.2).mp hmem' with ⟨h3, _⟩ | h3
      · exact hrestfresh q hq h3
      · exact hrs (h3 ▸ List.mem_map_of_mem Prod.snd hq)
    rcases applyRenames_keys rest (resolveNamesInMeta c r
        (dinsert (m.eraseP (fun p => decide (p.1 = c))) r e))
        hnd2 hcur2 (List.nodup_cons.mp hfnd2).2 hfresh2
        (List.nodup_cons.mp hsnd2).2 with ⟨mf, hok, hiff⟩
    refine ⟨mf, ?_, ?_⟩
    · show applyRenames ((c, r) :: rest) m = .ok mf
      simp only [applyRenames, he]
      exact hok
    · intro x
      rw [hiff x, hmem2 x]
      simp only [List.map_cons, List.mem_cons]
      by_cases hxr : x = r
      · subst hxr
        simp [hrfs, hrs, hr]
      · simp only [hxr, or_false, false_or]
        constructor
        · rintro (⟨⟨hxm, hxc⟩, hxf⟩ | hxs)
          · exact Or.inl ⟨hxm, fun h2 => h2.elim hxc hxf⟩
          · exact Or.inr hxs
        · rintro (⟨hxm, hxcf⟩ | hxs)
          · exact Or.inl ⟨⟨hxm, fun h2 => hxcf (Or.inl h2)⟩,
              fun h2 => hxcf (Or.inr h2)⟩
          · exact Or.inr hxs

/-- C2: the renaming pass of `resolve_meta` computes, for every entry of
the alias-substituted manifest whose `resource_type` is in the
eligible-for-renaming set and whose name changes,
`new_name = alias_resolve(prefix) ++ name ++ alias_resolve(suffix)` (each
part applied only when the corresponding rule string is configured), and
moves the entry to that new key; entries whose `resource_type` is not
eligible keep their key, and with an empty eligible set the manifest is
returned unchanged except for alias substitution.  Stated for manifests
with duplicate-free keys whose entries all carry a `resource_type`, under
freshness and injectivity of the resolved names (the clobbering of an
existing key by a resolved name is the spec's open question). -/
theorem C2_renamingPass (cfg : Config) (gs : List String) (m : Manifest)
    (hT : ∀ p ∈ m, hasKey "resource_type" p.2 = true)
    (hnd : (mkeys m).Nodup)
    (hfresh : ∀ k ∈ mkeys m, resolveResourceName cfg k ∉ mkeys m)
    (hinj : ∀ k ∈ mkeys m, ∀ k2 ∈ mkeys m,
      resolveResourceName cfg k = resolveResourceName cfg k2 → k = k2) :
    (∀ n, resolveResourceName cfg n =
      (if cfg.resourcesPre ≠ "" then
        resolveAliasesForString cfg.aliases cfg.resourcesPre else "") ++ n ++
      (if cfg.resourcesSuf ≠ "" then
        resolveAliasesForString cfg.aliases cfg.resourcesSuf else "")) ∧
    computeResolvedNames cfg gs (aliasPass cfg.aliases m) =
      .ok (renamePairs cfg gs (aliasPass cfg.aliases m)) ∧
    (∃ mf, resolveMeta cfg gs m = .ok mf ∧
      ∀ x, x ∈ mkeys mf ↔
        (x ∈ mkeys m ∧
          x ∉ (renamePairs cfg gs (aliasPass cfg.aliases m)).map Prod.fst) ∨
        x ∈ (renamePairs cfg gs (aliasPass cfg.aliases m)).map Prod.snd) ∧
    resolveMeta cfg [] m = .ok (aliasPass cfg.aliases m) := by
  have hT1 := hasKeyRT_aliasPass cfg.aliases m hT
  have hb := computeResolvedNames_eq cfg gs (aliasPass cfg.aliases m) hT1
  refine ⟨?_, hb, ?_, ?_⟩
  · intro n
    rw [resolveResourceName, resolveSuffixName, resolvePrefixName]
    by_cases hp : cfg.resourcesPre ≠ "" <;>
      by_cases hs2 : cfg.resourcesSuf ≠ "" <;>
      simp [hp, hs2, String.append_empty, String.empty_append]
  · have hndm1 : (mkeys (aliasPass cfg.aliases m)).Nodup := by
      rw [mkeys_aliasPass]
      exact hnd
    have hfst_sub := renamePairs_fst_sublist cfg gs (aliasPass cfg.aliases m)
    have hfstnd : ((renamePairs cfg gs
        (aliasPass cfg.aliases m)).map Prod.fst).Nodup :=
      hfst_sub.nodup hndm1
    have hcur : ∀ q ∈ renamePairs cfg gs (aliasPass cfg.aliases m),
        q.1 ∈ mkeys (aliasPass cfg.aliases m) := by
      intro q hq
      rcases renamePairs_mem _ _ _ q hq with ⟨p, hp, rfl⟩
      exact List.mem_map_of_mem Prod.fst hp
    have hfresh2 : ∀ q ∈ renamePairs cfg gs (aliasPass cfg.aliases m),
        q.2 ∉ mkeys (aliasPass cfg.aliases m) := by
      intro q hq
      rcases renamePairs_mem _ _ _ q hq with ⟨p, hp, rfl⟩
      rw [mkeys_aliasPass]
      refine hfresh p.1 ?_
      have := List.mem_map_of_mem Prod.fst hp
      rw [show (aliasPass cfg.aliases m).map Prod.fst =
        mkeys (aliasPass cfg.aliases m) from rfl, mkeys_aliasPass] at this
      exact this
    have hsndeq : (renamePairs cfg gs (aliasPass cfg.aliases m)).map Prod.snd =
        ((renamePairs cfg gs (aliasPass cfg.aliases m)).map Prod.fst).map
          (resolveResourceName cfg) := by
      rw [List.map_map]
      apply List.map_congr_left
      intro q hq
      rcases renamePairs_mem _ _ _ q hq with ⟨p, hp, rfl⟩
      rfl
    have hmemk : ∀ a ∈ (renamePairs cfg gs
        (aliasPass cfg.aliases m)).map Prod.fst, a ∈ mkeys m := by
      intro a ha
      have := hfst_sub.subset ha
      rw [mkeys_aliasPass] at this
      exact this
    have hsndnd : ((renamePairs cfg gs
        (aliasPass cfg.aliases m)).map Prod.snd).Nodup := by
      rw [hsndeq]
      refine hfstnd.map_on ?_
      intro a ha b hb hab
      exact hinj a (hmemk a ha) b (hmemk b hb) hab
    rcases applyRenames_keys (renamePairs cfg gs (aliasPass cfg.aliases m))
      (aliasPass cfg.aliases m) hndm1 hcur hfstnd hfresh2 hsndnd
      with ⟨mf, hok, hiff⟩
    refine ⟨mf, ?_, ?_⟩
    · show resolveMeta cfg gs m = .ok mf
      simp only [resolveMeta, hb, except_bind_ok]
      exact hok
    · intro x
      rw [hiff x, mkeys_aliasPass]
  · have hb0 := computeResolvedNames_eq cfg [] (aliasPass cfg.aliases m) hT1
    rw [renamePairs_empty] at hb0
    show resolveMeta cfg [] m = .ok (aliasPass cfg.aliases m)
    simp only [resolveMeta, hb0, except_bind_ok]
    rfl

theorem C2_renamingPass_witness :
    computeResolvedNames ⟨"dev-", "", [("x", "y")]⟩ ["sqs_queue"]
        (aliasPass [("x", "y")]
          [("queueA", [("resource_type", Val.str "sqs_queue")])]) =
      .ok (renamePairs ⟨"dev-", "", [("x", "y")]⟩ ["sqs_queue"]
        (aliasPass [("x", "y")]
          [("queueA", [("resource_type", Val.str "sqs_queue")])])) :=
  (C2_renamingPass ⟨"dev-", "", [("x", "y")]⟩ ["sqs_queue"]
    [("queueA", [("resource_type", Val.str "sqs_queue")])]
    (by decide) (by decide) (by decide) (by decide)).2.1
